import Mathlib

/-!
# toykv: the replicated key-value store's integration layer

A shallow embedding of `fsm/command.go`, `fsm/fsm.go`, `fsm/store..go`,
`store/store.go`, `server/handle.go` and `server/server.go`.

Go strings are byte sequences.  The routines of `encoding/json`, `unicode/utf8`
and `strings` that the program calls are transcribed at the byte level; bit
operations on disjoint bit fields are written with `/`, `%`, `*` and `+`.
The consensus engine (hashicorp/raft) and the RESP writer (goredis) are
collaborators outside the source tree: they appear as interface records whose
answers are arbitrary, together with a log of the calls made to them.
-/

namespace ToyKV

/-! ## Bytes and strings -/

/-- One byte of a Go string. -/
abbrev Byte := Fin 256

/-- Go string: an arbitrary sequence of bytes, not necessarily valid UTF-8. -/
abbrev GoString := List Byte

/-- Conversion `byte(n)`: truncation to eight bits. -/
def mkByte (n : Nat) : Byte := Fin.ofNat n

/-- Bytes of an ASCII string literal of the source. -/
def lit (s : String) : GoString := s.toList.map (fun c => mkByte c.toNat)

/-! ## unicode/utf8 -/

/-- Constant `utf8.RuneError`, the replacement character U+FFFD. -/
def RuneError : Nat := 0xFFFD

/-- Function `utf8.DecodeRune`: the first rune of `s` and its width in bytes.
An invalid encoding gives `(RuneError, 1)`, the empty string `(RuneError, 0)`. -/
def decodeRune : GoString → Nat × Nat
  | [] => (RuneError, 0)
  | s0 :: rest =>
    if s0.val < 0x80 then (s0.val, 1)
    else if s0.val < 0xC2 ∨ 0xF4 < s0.val then (RuneError, 1)
    else
      let sz := if s0.val < 0xE0 then 2 else if s0.val < 0xF0 then 3 else 4
      let lo := if s0.val = 0xE0 then 0xA0 else if s0.val = 0xF0 then 0x90 else 0x80
      let hi := if s0.val = 0xED then 0x9F else if s0.val = 0xF4 then 0x8F else 0xBF
      if rest.length + 1 < sz then (RuneError, 1)
      else
        match rest with
        | [] => (RuneError, 1)
        | s1 :: r1 =>
          if s1.val < lo ∨ hi < s1.val then (RuneError, 1)
          else if sz ≤ 2 then (s0.val % 32 * 64 + s1.val % 64, 2)
          else
            match r1 with
            | [] => (RuneError, 1)
            | s2 :: r2 =>
              if s2.val < 0x80 ∨ 0xBF < s2.val then (RuneError, 1)
              else if sz ≤ 3 then
                (s0.val % 16 * 4096 + s1.val % 64 * 64 + s2.val % 64, 3)
              else
                match r2 with
                | [] => (RuneError, 1)
                | s3 :: _ =>
                  if s3.val < 0x80 ∨ 0xBF < s3.val then (RuneError, 1)
                  else
                    (s0.val % 8 * 262144 + s1.val % 64 * 4096 + s2.val % 64 * 64
                      + s3.val % 64, 4)

/-- Function `utf8.EncodeRune` for a non-negative rune: its UTF-8 bytes;
surrogates and values above U+10FFFF are written as U+FFFD. -/
def encodeRune (r : Nat) : GoString :=
  if r ≤ 0x7F then [mkByte r]
  else if r ≤ 0x7FF then [mkByte (0xC0 + r / 64), mkByte (0x80 + r % 64)]
  else if 0x10FFFF < r ∨ (0xD800 ≤ r ∧ r ≤ 0xDFFF) then [0xEF, 0xBF, 0xBD]
  else if r ≤ 0xFFFF then
    [mkByte (0xE0 + r / 4096), mkByte (0x80 + r / 64 % 64), mkByte (0x80 + r % 64)]
  else
    [mkByte (0xF0 + r / 262144), mkByte (0x80 + r / 4096 % 64),
      mkByte (0x80 + r / 64 % 64), mkByte (0x80 + r % 64)]

/-- Function `utf8.ValidString`: no position of `s` decodes to `(RuneError, 1)`.
The first argument bounds the number of runes read. -/
def validStringAux : Nat → GoString → Bool
  | 0, s => s.isEmpty
  | _, [] => true
  | n + 1, b :: rest =>
    let cs := decodeRune (b :: rest)
    if cs.1 = RuneError ∧ cs.2 = 1 then false
    else validStringAux n ((b :: rest).drop cs.2)

/-- Function `utf8.ValidString`. -/
def validString (s : GoString) : Bool := validStringAux s.length s

/-! ## encoding/json: Marshal of a struct of strings -/

/-- Table `hex` of encoding/json: the lower-case hexadecimal digit of `n < 16`. -/
def hexDigit (n : Nat) : Byte := if n < 10 then mkByte (0x30 + n) else mkByte (0x57 + n)

/-- Table `htmlSafeSet`: the ASCII bytes written to a JSON string unescaped,
that is 0x20..0x7F without the double quote, ampersand, angle brackets, backslash. -/
def htmlSafe (b : Byte) : Bool :=
  0x20 ≤ b.val && b.val < 0x80 && b.val != 0x22 && b.val != 0x26 && b.val != 0x3C
    && b.val != 0x3E && b.val != 0x5C

/-- What the string encoder writes for one ASCII byte.  Backspace and form feed
take the generic six-byte escape here; Go releases that write them as the
two-byte escapes for them produce a literal that reads back to the
same byte. -/
def escapeByte (b : Byte) : GoString :=
  if htmlSafe b then [b]
  else if b.val = 0x5C ∨ b.val = 0x22 then [0x5C, b]
  else if b.val = 0x0A then [0x5C, 0x6E]
  else if b.val = 0x0D then [0x5C, 0x72]
  else if b.val = 0x09 then [0x5C, 0x74]
  else [0x5C, 0x75, 0x30, 0x30, hexDigit (b.val / 16), hexDigit (b.val % 16)]

/-- Loop of the JSON string encoder (`encodeState.string` with HTML escaping on)
over the bytes of `s`; the first argument bounds the number of iterations. -/
def appendStringBody : Nat → GoString → GoString
  | 0, _ => []
  | _, [] => []
  | n + 1, b :: rest =>
    if b.val < 0x80 then escapeByte b ++ appendStringBody n rest
    else
      let cs := decodeRune (b :: rest)
      if cs.1 = RuneError ∧ cs.2 = 1 then
        lit "\\ufffd" ++ appendStringBody n rest
      else if cs.1 = 0x2028 ∨ cs.1 = 0x2029 then
        lit "\\u202" ++ hexDigit (cs.1 % 16) :: appendStringBody n ((b :: rest).drop cs.2)
      else
        (b :: rest).take cs.2 ++ appendStringBody n ((b :: rest).drop cs.2)

/-- JSON string literal for the Go string `s`, quotes included. -/
def appendString (s : GoString) : GoString :=
  0x22 :: (appendStringBody s.length s ++ [0x22])

/-! ## fsm/command.go -/

/-- Struct `KeyValueCommand`: a key-value operation as it is written to the log. -/
structure KeyValueCommand where
  Operation : GoString
  Key : GoString
  Value : GoString
deriving DecidableEq, Repr

/-- Constructor `NewSetCommand`. -/
def NewSetCommand (key value : GoString) : KeyValueCommand :=
  { Operation := lit "SET", Key := key, Value := value }

/-- Constructor `NewGetCommand`. -/
def NewGetCommand (key : GoString) : KeyValueCommand :=
  { Operation := lit "GET", Key := key, Value := [] }

/-- Constructor `NewDelCommand`. -/
def NewDelCommand (key : GoString) : KeyValueCommand :=
  { Operation := lit "DEL", Key := key, Value := [] }

/-- Members of a JSON object joined by commas. -/
def joinMembers : List GoString → GoString
  | [] => []
  | [m] => m
  | m :: ms => m ++ 0x2C :: joinMembers ms

/-- One member of the object: the quoted field name, a colon, the string value. -/
def marshalMember (f : GoString × GoString) : GoString :=
  0x22 :: (f.1 ++ 0x22 :: 0x3A :: appendString f.2)

/-- Function `json.Marshal` on a `KeyValueCommand`: the fields `op`, `key`,
`value` in declaration order, a field left out when its string is empty
(`omitempty`).  It never fails on a struct of strings. -/
def jsonMarshal (c : KeyValueCommand) : GoString :=
  0x7B :: (joinMembers
    (([(lit "op", c.Operation), (lit "key", c.Key), (lit "value", c.Value)].filter
      (fun f => !f.2.isEmpty)).map marshalMember) ++ [0x7D])

/-! ## encoding/json: Unmarshal into a struct of strings -/

/-- Function `isSpace` of the JSON scanner. -/
def isSpace (b : Byte) : Bool :=
  b.val == 0x20 || b.val == 0x09 || b.val == 0x0D || b.val == 0x0A

/-- Skip JSON white space. -/
def skipSpace : GoString → GoString
  | [] => []
  | b :: rest => if isSpace b then skipSpace rest else b :: rest

/-- Value of a hexadecimal digit, in either case. -/
def hexVal (b : Byte) : Option Nat :=
  if 0x30 ≤ b.val ∧ b.val ≤ 0x39 then some (b.val - 0x30)
  else if 0x61 ≤ b.val ∧ b.val ≤ 0x66 then some (b.val - 0x61 + 10)
  else if 0x41 ≤ b.val ∧ b.val ≤ 0x46 then some (b.val - 0x41 + 10)
  else none

/-- Function `getu4`: the code unit of a backslash-u escape with four
hexadecimal digits at the head of `s`; `none` where Go returns -1. -/
def getu4 : GoString → Option Nat
  | e :: u :: a :: b :: c :: d :: _ =>
    if e.val = 0x5C ∧ u.val = 0x75 then
      match hexVal a, hexVal b, hexVal c, hexVal d with
      | some x, some y, some z, some w => some (((x * 16 + y) * 16 + z) * 16 + w)
      | _, _, _, _ => none
    else none
  | _ => none

/-- Prepend decoded bytes to the result of reading the rest of a literal. -/
def emit (bs : GoString) : Option (GoString × GoString) → Option (GoString × GoString)
  | some (t, rest) => some (bs ++ t, rest)
  | none => none

/-- Escape sequence of a string literal: `c` is the backslash and `rest` what
follows it; `next` reads the remainder of the literal.  An escape the scanner
does not accept is a syntax error.  A surrogate pair gives its rune; a
surrogate without its partner gives U+FFFD. -/
def readEscape (next : GoString → Option (GoString × GoString)) (c : Byte) (rest : GoString) :
    Option (GoString × GoString) :=
  match rest with
  | [] => none
  | e :: rest2 =>
    if e.val = 0x22 ∨ e.val = 0x5C ∨ e.val = 0x2F then emit [e] (next rest2)
    else if e.val = 0x62 then emit [0x08] (next rest2)
    else if e.val = 0x66 then emit [0x0C] (next rest2)
    else if e.val = 0x6E then emit [0x0A] (next rest2)
    else if e.val = 0x72 then emit [0x0D] (next rest2)
    else if e.val = 0x74 then emit [0x09] (next rest2)
    else if e.val = 0x75 then
      match getu4 (c :: rest) with
      | none => none
      | some rr =>
        if 0xD800 ≤ rr ∧ rr < 0xE000 then
          match getu4 (rest2.drop 4) with
          | some rr1 =>
            if rr < 0xDC00 ∧ 0xDC00 ≤ rr1 ∧ rr1 < 0xE000 then
              emit (encodeRune ((rr - 0xD800) * 1024 + (rr1 - 0xDC00) + 0x10000))
                (next (rest2.drop 10))
            else emit (encodeRune RuneError) (next (rest2.drop 4))
          | none => emit (encodeRune RuneError) (next (rest2.drop 4))
        else emit (encodeRune rr) (next (rest2.drop 4))
    else none

/-- Read a JSON string literal whose opening quote has been consumed: the
scanner's string states together with `unquote`.  Returns the decoded Go string
and the input after the closing quote; `none` for a syntax error.  Raw bytes
that are not valid UTF-8 become U+FFFD.  The first argument bounds the number
of iterations. -/
def readString : Nat → GoString → Option (GoString × GoString)
  | 0, _ => none
  | _, [] => none
  | n + 1, c :: rest =>
    if c.val = 0x22 then some ([], rest)
    else if c.val = 0x5C then readEscape (readString n) c rest
    else if c.val < 0x20 then none
    else if c.val < 0x80 then emit [c] (readString n rest)
    else
      let cs := decodeRune (c :: rest)
      emit (encodeRune cs.1) (readString n ((c :: rest).drop cs.2))

/-- Function `foldRune` restricted to what a comparison with the ASCII field
names observes: the two non-ASCII runes whose case-folding orbit holds an ASCII
letter (U+017F with S, U+212A with K) fold to that letter. -/
def foldRune (r : Nat) : Nat :=
  if r = 0x17F then 0x53 else if r = 0x212A then 0x4B else r

/-- Function `foldName`: the case-folded form of a member name. -/
def foldName : Nat → GoString → GoString
  | 0, _ => []
  | _, [] => []
  | n + 1, c :: rest =>
    if c.val < 0x80 then
      (if 0x61 ≤ c.val ∧ c.val ≤ 0x7A then mkByte (c.val - 0x20) else c) :: foldName n rest
    else
      let cs := decodeRune (c :: rest)
      encodeRune (foldRune cs.1) ++ foldName n ((c :: rest).drop cs.2)

/-- Store a decoded member into the struct: the field whose JSON name equals
the member name, or else equals it after case folding; a member that names no
field is ignored. -/
def setField (c : KeyValueCommand) (name val : GoString) : KeyValueCommand :=
  if name = lit "op" then { c with Operation := val }
  else if name = lit "key" then { c with Key := val }
  else if name = lit "value" then { c with Value := val }
  else
    let f := foldName name.length name
    if f = lit "OP" then { c with Operation := val }
    else if f = lit "KEY" then { c with Key := val }
    else if f = lit "VALUE" then { c with Value := val }
    else c

/-- Members of a JSON object, from the opening quote of a member name up to
and including the closing brace.  Only string values are modelled: a member
whose value is a number, a literal, an array or an object ends the decoding
with `none`.  The first argument bounds the number of members. -/
def decodeMembers : Nat → GoString → KeyValueCommand → Option (KeyValueCommand × GoString)
  | 0, _, _ => none
  | _, [], _ => none
  | n + 1, q :: s1, c =>
    if q.val ≠ 0x22 then none
    else
      match readString s1.length s1 with
      | none => none
      | some (name, s2) =>
        match skipSpace s2 with
        | [] => none
        | colon :: s3 =>
          if colon.val ≠ 0x3A then none
          else
            match skipSpace s3 with
            | [] => none
            | q2 :: s4 =>
              if q2.val ≠ 0x22 then none
              else
                match readString s4.length s4 with
                | none => none
                | some (val, s5) =>
                  match skipSpace s5 with
                  | [] => none
                  | d :: s6 =>
                    if d.val = 0x2C then decodeMembers n (skipSpace s6) (setField c name val)
                    else if d.val = 0x7D then some (setField c name val, s6)
                    else none

/-- Function `json.Unmarshal` into a zero `KeyValueCommand`, for documents that
are one object whose members are strings, which is the shape `json.Marshal`
gives a `KeyValueCommand`.  A later member overrides an earlier one of the same
field.  Documents with other kinds of values are outside this model and are
reported as `none`, like the documents Go rejects. -/
def jsonUnmarshal (data : GoString) : Option KeyValueCommand :=
  match skipSpace data with
  | [] => none
  | b :: s1 =>
    if b.val ≠ 0x7B then none
    else
      match skipSpace s1 with
      | [] => none
      | e :: s2 =>
        if e.val = 0x7D then
          (if skipSpace s2 = [] then some { Operation := [], Key := [], Value := [] } else none)
        else
          match decodeMembers data.length (e :: s2) { Operation := [], Key := [], Value := [] } with
          | none => none
          | some (c, rest) => if skipSpace rest = [] then some c else none

/-! ## Errors -/

/-- Error values of the program.  An error made by the consensus engine or by
the connection is a value of its own, distinct from the errors declared in
this source tree. -/
inductive Error
  /-- Variable `store.ErrNotLeader`. -/
  | ErrNotLeader
  /-- Variable `server.ErrParams`. -/
  | ErrParams
  /-- Variable `server.ErrRespType`. -/
  | ErrRespType
  /-- Variable `server.ErrCmdNotSupport`, text "ERR command not supported". -/
  | ErrCmdNotSupport
  /-- Error "failed to unmarshal raft log" made by `RaftFsm.Apply`. -/
  | unmarshalFailed
  /-- Error "operation not support" made by `RaftFsm.Apply`. -/
  | opNotSupport
  /-- Error "node %s already joined raft cluster" made by `Store.Join`. -/
  | alreadyJoined (nodeID : GoString)
  /-- An error reported by the consensus engine. -/
  | engine (code : Nat)
  /-- An error reported by the RESP writer or the connection under it. -/
  | transport (code : Nat)
deriving DecidableEq, Repr

/-! ## strings.ToUpper and strings.ToLower -/

/-- Unicode case mappings `strings.Map(unicode.ToUpper, s)` and
`strings.Map(unicode.ToLower, s)`, which the Go library applies to a string
with a non-ASCII byte; their tables are not part of this source tree. -/
structure CaseTables where
  upper : GoString → GoString
  lower : GoString → GoString

/-- ASCII upper-casing of one byte. -/
def upperByte (c : Byte) : Byte :=
  if 0x61 ≤ c.val ∧ c.val ≤ 0x7A then mkByte (c.val - 0x20) else c

/-- ASCII lower-casing of one byte. -/
def lowerByte (c : Byte) : Byte :=
  if 0x41 ≤ c.val ∧ c.val ≤ 0x5A then mkByte (c.val + 0x20) else c

/-- Function `strings.ToUpper`: byte-wise on an ASCII string, the Unicode
mapping otherwise. -/
def ToUpper (U : CaseTables) (s : GoString) : GoString :=
  if s.all (fun c => c.val < 0x80) then s.map upperByte else U.upper s

/-- Function `strings.ToLower`: byte-wise on an ASCII string, the Unicode
mapping otherwise. -/
def ToLower (U : CaseTables) (s : GoString) : GoString :=
  if s.all (fun c => c.val < 0x80) then s.map lowerByte else U.lower s

/-! ## fsm/store..go -/

/-- Struct `MemStore`: the map `m` from key to value (a finite map with unique
keys; the order of the entries carries no meaning).  The mutex is not
modelled: operations are atomic steps. -/
structure MemStore where
  m : AList (fun _ : GoString => GoString)

/-- Constructor `NewMemStore`: the empty map. -/
def NewMemStore : MemStore := { m := ∅ }

/-- Method `MemStore.Get`: `m.m[key]`, the empty string for an absent key, and
a nil error. -/
def MemStore.Get (s : MemStore) (key : GoString) : GoString × Option Error :=
  ((s.m.lookup key).getD [], none)

/-- Method `MemStore.Set`: `m.m[key] = value`; returns nil. -/
def MemStore.Set (s : MemStore) (key value : GoString) : Option Error × MemStore :=
  (none, { m := s.m.insert key value })

/-- Method `MemStore.Delete`: `delete(m.m, key)`; returns `true, nil`. -/
def MemStore.Delete (s : MemStore) (key : GoString) : (Bool × Option Error) × MemStore :=
  ((true, none), { m := s.m.erase key })

/-! ## fsm/fsm.go -/

/-- Struct `RaftFsm`. -/
structure RaftFsm where
  store : MemStore

/-- Constructor `NewFSM`. -/
def NewFSM : RaftFsm := { store := NewMemStore }

/-- Method `RaftFsm.Get`. -/
def RaftFsm.Get (f : RaftFsm) (key : GoString) : GoString × Option Error :=
  match f.store.Get key with
  | (_, some err) => ([], some err)
  | (v, none) => (v, none)

/-- Method `RaftFsm.applySet`. -/
def RaftFsm.applySet (f : RaftFsm) (key value : GoString) : Option Error × RaftFsm :=
  let r := f.store.Set key value
  (r.1, { store := r.2 })

/-- Method `RaftFsm.applyDel`. -/
def RaftFsm.applyDel (f : RaftFsm) (key : GoString) : Option Error × RaftFsm :=
  let r := f.store.Delete key
  (r.1.2, { store := r.2 })

/-- Method `RaftFsm.Apply` on the data of a log entry: the outcome (nil or an
error value) and the state machine afterwards.  The decoder `unmarshal` stands
for `json.Unmarshal` into a `KeyValueCommand`, `none` being its error. -/
def RaftFsm.Apply (unmarshal : GoString → Option KeyValueCommand) (U : CaseTables)
    (f : RaftFsm) (data : GoString) : Option Error × RaftFsm :=
  match unmarshal data with
  | none => (some Error.unmarshalFailed, f)
  | some c =>
    if ToUpper U c.Operation = lit "SET" then f.applySet c.Key c.Value
    else if ToUpper U c.Operation = lit "DEL" then f.applyDel c.Key
    else (some Error.opNotSupport, f)

/-- Apply a sequence of log entries in order. -/
def RaftFsm.applyAll (unmarshal : GoString → Option KeyValueCommand) (U : CaseTables)
    (f : RaftFsm) (entries : List GoString) : RaftFsm :=
  entries.foldl (fun g data => (RaftFsm.Apply unmarshal U g data).2) f

/-! ## The consensus engine, as store/store.go uses it -/

/-- Type `raft.RaftState`. -/
inductive RaftState
  | Follower
  | Candidate
  | Leader
  | Shutdown
deriving DecidableEq, Repr

/-- Struct `raft.Server`: a member of the cluster configuration. -/
structure Server where
  ID : GoString
  Address : GoString
deriving DecidableEq, Repr

/-- A call made on the `*raft.Raft` handle. -/
inductive RaftCall
  | State
  | Apply (data : GoString)
  | GetConfiguration
  | AddVoter (id address : GoString)
  | RemoveServer (id : GoString)
deriving DecidableEq, Repr

/-- The methods of `*raft.Raft` that the store calls, over an engine state `ρ`.
`Apply` answers what the future's `Error()` gives once the call has been
waited for, with the engine and the state machine it feeds as they are then;
`GetConfiguration` answers the future's error or the servers of the current
configuration.  Errors are engine error codes. -/
structure RaftEngine (ρ : Type) where
  State : ρ → RaftState
  Apply : ρ → RaftFsm → GoString → Option Nat × ρ × RaftFsm
  GetConfiguration : ρ → Except Nat (List Server)
  AddVoter : ρ → GoString → GoString → Option Nat × ρ
  RemoveServer : ρ → GoString → Option Nat × ρ

/-! ## store/store.go -/

/-- Struct `Store` after a successful `Init`: the engine handle `raft`, the
state machine `fsm`, and the calls made on the engine so far, oldest first. -/
structure Store (ρ : Type) where
  raft : ρ
  fsm : RaftFsm
  calls : List RaftCall

/-- Method `Store.Get`. -/
def Store.Get {ρ : Type} (s : Store ρ) (key : GoString) : (GoString × Option Error) × Store ρ :=
  (s.fsm.Get key, s)

/-- Propose an encoded command: the common tail of `Store.Set` and
`Store.Delete`, `s.raft.Apply(b, timeout)` then `future.Error()`.  The error
branch after `json.Marshal` is not reachable for a struct of strings and is
left out. -/
def Store.propose {ρ : Type} (E : RaftEngine ρ) (s : Store ρ) (b : GoString) :
    Option Error × Store ρ :=
  let r := E.Apply s.raft s.fsm b
  (r.1.map Error.engine, { raft := r.2.1, fsm := r.2.2, calls := s.calls ++ [RaftCall.Apply b] })

/-- Method `Store.Set`. -/
def Store.Set {ρ : Type} (E : RaftEngine ρ) (s : Store ρ) (key value : GoString) :
    Option Error × Store ρ :=
  let s1 := { s with calls := s.calls ++ [RaftCall.State] }
  if E.State s.raft ≠ RaftState.Leader then (some Error.ErrNotLeader, s1)
  else Store.propose E s1 (jsonMarshal (NewSetCommand key value))

/-- Method `Store.Delete`. -/
def Store.Delete {ρ : Type} (E : RaftEngine ρ) (s : Store ρ) (key : GoString) :
    Option Error × Store ρ :=
  let s1 := { s with calls := s.calls ++ [RaftCall.State] }
  if E.State s.raft ≠ RaftState.Leader then (some Error.ErrNotLeader, s1)
  else Store.propose E s1 (jsonMarshal (NewDelCommand key))

/-- Method `Store.Join`. -/
def Store.Join {ρ : Type} (E : RaftEngine ρ) (s : Store ρ) (nodeID address : GoString) :
    Option Error × Store ρ :=
  let s1 := { s with calls := s.calls ++ [RaftCall.GetConfiguration] }
  match E.GetConfiguration s.raft with
  | Except.error e => (some (Error.engine e), s1)
  | Except.ok servers =>
    if servers.any (fun server => server.ID = nodeID) then
      (some (Error.alreadyJoined nodeID), s1)
    else
      let r := E.AddVoter s.raft nodeID address
      (r.1.map Error.engine,
        { s1 with raft := r.2, calls := s1.calls ++ [RaftCall.AddVoter nodeID address] })

/-- Method `Store.Leave`. -/
def Store.Leave {ρ : Type} (E : RaftEngine ρ) (s : Store ρ) (nodeID : GoString) :
    Option Error × Store ρ :=
  let s1 := { s with calls := s.calls ++ [RaftCall.GetConfiguration] }
  match E.GetConfiguration s.raft with
  | Except.error e => (some (Error.engine e), s1)
  | Except.ok servers =>
    if servers.any (fun server => server.ID = nodeID) then
      let r := E.RemoveServer s.raft nodeID
      (r.1.map Error.engine,
        { s1 with raft := r.2, calls := s1.calls ++ [RaftCall.RemoveServer nodeID] })
    else (none, s1)

/-! ## server/server.go and server/handle.go -/

/-- The dynamic values `ToyKVClient.Write` distinguishes by type. -/
inductive Resp
  | array (v : List GoString)
  | bytes (b : GoString)
  | nil
  | int64 (n : Int)
  | string (s : GoString)
  | error (e : Error)
  | other
deriving DecidableEq, Repr

/-- A call made on the `*goredis.RespWriter`.  `WriteString` writes a status
(simple string) reply, `WriteBulk` a bulk reply, which is the nil bulk reply
for `none`. -/
inductive WriterCall
  | WriteArray (v : List GoString)
  | WriteBulk (b : Option GoString)
  | WriteInteger (n : Int)
  | WriteString (s : GoString)
  | WriteError (e : Error)
  | Flush
deriving DecidableEq, Repr

/-- The RESP writer over a connection state `ω`: each call answers nil or a
transport error code and leaves the connection in a new state. -/
structure RespWriter (ω : Type) where
  call : ω → WriterCall → Option Nat × ω

/-- A call made on the store by a command handler. -/
inductive StoreCall
  | Set (key value : GoString)
  | Get (key : GoString)
  | Delete (key : GoString)
  | Join (nodeID address : GoString)
  | Leave (nodeID : GoString)
deriving DecidableEq, Repr

/-- Struct `ToyKVClient`, with the store of its server.  `written` and
`storeCalls` record the calls made on the writer and on the store, oldest
first. -/
structure ToyKVClient (ρ ω : Type) where
  cmd : GoString
  args : List GoString
  rWriter : ω
  written : List WriterCall
  store : Store ρ
  storeCalls : List StoreCall

/-- One call on the RESP writer. -/
def ToyKVClient.writer {ρ ω : Type} (W : RespWriter ω) (c : ToyKVClient ρ ω) (k : WriterCall) :
    Option Error × ToyKVClient ρ ω :=
  let r := W.call c.rWriter k
  (r.1.map Error.transport, { c with rWriter := r.2, written := c.written ++ [k] })

/-- Method `ToyKVClient.Write`. -/
def ToyKVClient.Write {ρ ω : Type} (W : RespWriter ω) (c : ToyKVClient ρ ω) (resp : Resp) :
    Option Error × ToyKVClient ρ ω :=
  match resp with
  | Resp.array v => c.writer W (WriterCall.WriteArray v)
  | Resp.bytes b => c.writer W (WriterCall.WriteBulk (some b))
  | Resp.nil => c.writer W (WriterCall.WriteBulk none)
  | Resp.int64 n => c.writer W (WriterCall.WriteInteger n)
  | Resp.string s => c.writer W (WriterCall.WriteString s)
  | Resp.error e => c.writer W (WriterCall.WriteError e)
  | Resp.other => (some Error.ErrRespType, c)

/-- Method `ToyKVClient.Flush`. -/
def ToyKVClient.Flush {ρ ω : Type} (W : RespWriter ω) (c : ToyKVClient ρ ω) (data : Resp) :
    Option Error × ToyKVClient ρ ω :=
  match c.Write W data with
  | (some err, c1) => (some err, c1)
  | (none, c1) => c1.writer W WriterCall.Flush

/-- Method `handlePing`. -/
def ToyKVClient.handlePing {ρ ω : Type} (c : ToyKVClient ρ ω) : Option Error × ToyKVClient ρ ω :=
  (none, c)

/-- Method `handleSet`. -/
def ToyKVClient.handleSet {ρ ω : Type} (E : RaftEngine ρ) (c : ToyKVClient ρ ω) :
    Option Error × ToyKVClient ρ ω :=
  match c.args with
  | [key, value] =>
    let r := c.store.Set E key value
    (r.1, { c with store := r.2, storeCalls := c.storeCalls ++ [StoreCall.Set key value] })
  | _ => (some Error.ErrParams, c)

/-- Method `handleGet`. -/
def ToyKVClient.handleGet {ρ ω : Type} (c : ToyKVClient ρ ω) :
    (GoString × Option Error) × ToyKVClient ρ ω :=
  match c.args with
  | [key] =>
    let r := c.store.Get key
    (r.1, { c with store := r.2, storeCalls := c.storeCalls ++ [StoreCall.Get key] })
  | _ => (([], some Error.ErrParams), c)

/-- Method `handleDel`. -/
def ToyKVClient.handleDel {ρ ω : Type} (E : RaftEngine ρ) (c : ToyKVClient ρ ω) :
    Option Error × ToyKVClient ρ ω :=
  match c.args with
  | [key] =>
    let r := c.store.Delete E key
    (r.1, { c with store := r.2, storeCalls := c.storeCalls ++ [StoreCall.Delete key] })
  | _ => (some Error.ErrParams, c)

/-- Method `handleJoin`. -/
def ToyKVClient.handleJoin {ρ ω : Type} (E : RaftEngine ρ) (c : ToyKVClient ρ ω) :
    Option Error × ToyKVClient ρ ω :=
  match c.args with
  | [addr, nodeID] =>
    let r := c.store.Join E nodeID addr
    (r.1, { c with store := r.2, storeCalls := c.storeCalls ++ [StoreCall.Join nodeID addr] })
  | _ => (some Error.ErrParams, c)

/-- Method `handleLeave`. -/
def ToyKVClient.handleLeave {ρ ω : Type} (E : RaftEngine ρ) (c : ToyKVClient ρ ω) :
    Option Error × ToyKVClient ρ ω :=
  match c.args with
  | [nodeID] =>
    let r := c.store.Leave E nodeID
    (r.1, { c with store := r.2, storeCalls := c.storeCalls ++ [StoreCall.Leave nodeID] })
  | _ => (some Error.ErrParams, c)

/-- On a nil error flush the status reply `ok`; the result of `Flush` is
discarded, as in each case of the switch of `requestHandler`. -/
def ToyKVClient.replyStatus {ρ ω : Type} (W : RespWriter ω) (ok : GoString)
    (r : Option Error × ToyKVClient ρ ω) : Option Error × ToyKVClient ρ ω :=
  match r with
  | (none, c) => (none, (c.Flush W (Resp.string ok)).2)
  | (some err, c) => (some err, c)

/-- The switch of `requestHandler` on `c.cmd`: the error left in `err` and the
client afterwards. -/
def ToyKVClient.dispatch {ρ ω : Type} (E : RaftEngine ρ) (W : RespWriter ω)
    (c : ToyKVClient ρ ω) : Option Error × ToyKVClient ρ ω :=
  if c.cmd = lit "ping" then ToyKVClient.replyStatus W (lit "PONG") c.handlePing
  else if c.cmd = lit "set" then ToyKVClient.replyStatus W (lit "OK") (c.handleSet E)
  else if c.cmd = lit "join" then ToyKVClient.replyStatus W (lit "OK") (c.handleJoin E)
  else if c.cmd = lit "leave" then ToyKVClient.replyStatus W (lit "OK") (c.handleLeave E)
  else if c.cmd = lit "del" then ToyKVClient.replyStatus W (lit "OK") (c.handleDel E)
  else if c.cmd = lit "get" then
    match c.handleGet with
    | ((v, none), c1) => (none, (c1.Flush W (Resp.string v)).2)
    | ((_, some err), c1) => (some err, c1)
  else (some Error.ErrCmdNotSupport, c)

/-- Method `ToyKVClient.requestHandler`: the returned error and the client
afterwards. -/
def ToyKVClient.requestHandler {ρ ω : Type} (E : RaftEngine ρ) (W : RespWriter ω)
    (U : CaseTables) (c : ToyKVClient ρ ω) (req : List GoString) :
    Option Error × ToyKVClient ρ ω :=
  let c0 : ToyKVClient ρ ω :=
    match req with
    | [] => { c with cmd := [], args := [] }
    | name :: args => { c with cmd := ToLower U name, args := args }
  match ToyKVClient.dispatch E W c0 with
  | (some err, c1) => (none, (c1.Flush W (Resp.error err)).2)
  | (none, c1) => (none, c1)

/-! ## Definitions used to state and to exercise the properties -/

/-- A client write as the claims speak of it: SET of a key to a value, or DEL
of a key. -/
inductive WriteOp
  | set (key value : GoString)
  | del (key : GoString)
deriving DecidableEq, Repr

/-- The key a write is about. -/
def WriteOp.key : WriteOp → GoString
  | WriteOp.set k _ => k
  | WriteOp.del k => k

/-- The command the store builds for a write (`Store.Set`, `Store.Delete`). -/
def WriteOp.command : WriteOp → KeyValueCommand
  | WriteOp.set k v => NewSetCommand k v
  | WriteOp.del k => NewDelCommand k

/-- The log entry of a write: its command, encoded. -/
def WriteOp.entry (op : WriteOp) : GoString := jsonMarshal op.command

/-- Strings of a write are valid UTF-8. -/
def WriteOp.valid : WriteOp → Bool
  | WriteOp.set k v => validString k && validString v
  | WriteOp.del k => validString k

/-- Last-writer-wins projection of a sequence of writes, in the words of the
specification: a key maps to the value of its last SET when no DEL of the key
comes after it, and is absent otherwise. -/
def lastWriterWins (ops : List WriteOp) (key : GoString) : Option GoString :=
  match (ops.filter (fun op => op.key = key)).getLast? with
  | some (WriteOp.set _ v) => some v
  | _ => none

/-- Engine contract for membership: a voter the engine accepted is a server of
the configuration it reports afterwards. -/
def RaftEngine.AddVoterJoins {ρ : Type} (E : RaftEngine ρ) : Prop :=
  ∀ (r : ρ) (id address : GoString),
    (E.AddVoter r id address).1 = none →
      ∃ servers, E.GetConfiguration (E.AddVoter r id address).2 = Except.ok servers
        ∧ servers.any (fun server => server.ID = id) = true

/-- Engine behaviour assumed by the end-to-end claim: in state `r` the engine
commits a proposal, delivers it to `RaftFsm.Apply` and reports success. -/
def RaftEngine.CommitsAt {ρ : Type} (E : RaftEngine ρ) (U : CaseTables) (r : ρ) : Prop :=
  ∀ (f : RaftFsm) (data : GoString),
    (E.Apply r f data).1 = none
      ∧ (E.Apply r f data).2.2 = (RaftFsm.Apply jsonUnmarshal U f data).2

/-- State of a one-node reference engine: its role and its configuration. -/
structure SoloRaft where
  state : RaftState
  servers : List Server
deriving DecidableEq, Repr

/-- A reference engine for exercising the store: while leader it commits every
proposal at once and delivers it to the state machine, adds and removes
servers as asked; otherwise it answers error code 1 and changes nothing. -/
def soloEngine (U : CaseTables) : RaftEngine SoloRaft where
  State := fun r => r.state
  Apply := fun r f data =>
    if r.state = RaftState.Leader then (none, r, (RaftFsm.Apply jsonUnmarshal U f data).2)
    else (some 1, r, f)
  GetConfiguration := fun r => Except.ok r.servers
  AddVoter := fun r id address =>
    if r.state = RaftState.Leader then
      (none, { r with servers := r.servers.filter (fun sv => sv.ID ≠ id) ++ [⟨id, address⟩] })
    else (some 1, r)
  RemoveServer := fun r id =>
    if r.state = RaftState.Leader then
      (none, { r with servers := r.servers.filter (fun sv => sv.ID ≠ id) })
    else (some 1, r)

/-- Case tables that leave non-ASCII strings as they are; the inputs they are
used with are ASCII. -/
def asciiTables : CaseTables := { upper := id, lower := id }

/-- A connection on which every write succeeds. -/
def okWriter : RespWriter Unit := { call := fun _ _ => (none, ()) }

/-- A store on the reference engine. -/
def soloStore (state : RaftState) (servers : List Server) (f : RaftFsm) : Store SoloRaft :=
  { raft := { state := state, servers := servers }, fsm := f, calls := [] }

/-- A fresh client session on a store. -/
def newClient {ρ : Type} (s : Store ρ) : ToyKVClient ρ Unit :=
  { cmd := [], args := [], rWriter := (), written := [], store := s, storeCalls := [] }

/-! ## Further parts of the source: error texts, the session loop, the snapshot
export and the initialisation of the store -/

/-- Text of an error value of this source tree, as given to `errors.New` or
`fmt.Errorf`; `none` for the errors of the collaborators, whose text is theirs.
The RESP writer sends this text after the `-` of an error reply. -/
def Error.text : Error → Option GoString
  | Error.ErrNotLeader => some (lit "not leader")
  | Error.ErrParams => some (lit "ERR params invalid")
  | Error.ErrRespType => some (lit "ERR resp type invalid")
  | Error.ErrCmdNotSupport => some (lit "ERR command not supported")
  | Error.unmarshalFailed => some (lit "failed to unmarshal raft log")
  | Error.opNotSupport => some (lit "operation not support")
  | Error.alreadyJoined nodeID => some (lit "node " ++ nodeID ++ lit " already joined raft cluster")
  | Error.engine _ => none
  | Error.transport _ => none

/-- The command name `requestHandler` stores in `c.cmd` for a request: empty
for the empty request, else the lower-cased first element. -/
def commandName (U : CaseTables) : List GoString → GoString
  | [] => []
  | name :: _ => ToLower U name

/-- The arguments `requestHandler` stores in `c.args` for a request. -/
def commandArgs : List GoString → List GoString
  | [] => []
  | _ :: args => args

/-- The six command names of the switch of `requestHandler`. -/
def supportedCommands : List GoString :=
  [lit "ping", lit "set", lit "join", lit "leave", lit "del", lit "get"]

/-- Number of arguments each command takes, in the words of the specification:
set 2, get 1, del 1, join 2, leave 1. -/
def requiredArgs (cmd : GoString) : Option Nat :=
  if cmd = lit "set" then some 2
  else if cmd = lit "get" then some 1
  else if cmd = lit "del" then some 1
  else if cmd = lit "join" then some 2
  else if cmd = lit "leave" then some 1
  else none

/-- What `rReader.ParseRequest` gives back: a request, the error `io.EOF`, or
another error. -/
inductive ParseResult
  | request (req : List GoString)
  | eof
  | failed (code : Nat)
deriving DecidableEq, Repr

/-- Where a run of `clientHandler` stands: the client, whether the loop has
been left (the function returned and the connection was closed), and the
requests handed to `requestHandler`, oldest first. -/
structure Session (ρ ω : Type) where
  client : ToyKVClient ρ ω
  closed : Bool
  dispatched : List (List GoString)

/-- Method `clientHandler`, run against the successive results of
`ParseRequest`.  When the results run out the loop is waiting in
`ParseRequest` and has not been left. -/
def ToyKVClient.clientHandler {ρ ω : Type} (E : RaftEngine ρ) (W : RespWriter ω)
    (U : CaseTables) : ToyKVClient ρ ω → List ParseResult → Session ρ ω
  | c, [] => { client := { c with cmd := [], args := [] }, closed := false, dispatched := [] }
  | c, ParseResult.failed _ :: ps =>
    ToyKVClient.clientHandler E W U { c with cmd := [], args := [] } ps
  | c, ParseResult.eof :: _ =>
    { client := { c with cmd := [], args := [] }, closed := true, dispatched := [] }
  | c, ParseResult.request req :: ps =>
    match ToyKVClient.requestHandler E W U { c with cmd := [], args := [] } req with
    | (some _, c1) => { client := c1, closed := true, dispatched := [req] }
    | (none, c1) =>
      let s := ToyKVClient.clientHandler E W U c1 ps
      { s with dispatched := req :: s.dispatched }

/-- Struct `DataItem`. -/
structure DataItem where
  key : GoString
  value : GoString
deriving DecidableEq, Repr

/-- The loop of `GetSnapshotData` over the entries still to send, with `buf`
what the channel of capacity `cap` holds.  A send on a full channel blocks, and
nothing receives from the channel before the function has returned it, so such
a send never completes: `none`.  Otherwise the channel contents at the
return. -/
def sendAll (cap : Nat) : List DataItem → List (Sigma fun _ : GoString => GoString) →
    Option (List DataItem)
  | buf, [] => some buf
  | buf, e :: es =>
    if buf.length < cap then sendAll cap (buf ++ [{ key := e.1, value := e.2 }]) es
    else none

/-- Method `MemStore.GetSnapshotData`: the items the returned channel holds, or
`none` when the function does not return.  The channel is made with capacity
1024; the map is ranged over in the order of its entries. -/
def MemStore.GetSnapshotData (s : MemStore) : Option (List DataItem) :=
  sendAll 1024 [] s.m.entries

/-- A map with `n` entries: the keys are the strings of 0, 1, ..., n-1 letters
k, each with the empty value. -/
def manyEntries : Nat → AList (fun _ : GoString => GoString)
  | 0 => ∅
  | n + 1 => (manyEntries n).insert (List.replicate n 0x6B) []

/-- The outcomes of the library calls `Store.Init` makes, in order: the error
of `net.ResolveTCPAddr`, of `raft.NewTCPTransport`, of
`raft.NewFileSnapshotStore`, of `raftboltdb.NewBoltStore`, the engine or the
error of `raft.NewRaft`, and the engine after `BootstrapCluster` for a node
identifier. -/
structure InitEnv (ρ : Type) where
  resolveTCPAddr : Option Nat
  newTCPTransport : Option Nat
  newFileSnapshotStore : Option Nat
  newBoltStore : Option Nat
  newRaft : Except Nat ρ
  bootstrapCluster : ρ → GoString → ρ

/-- Method `Store.Init`: the returned error and the field `s.raft` afterwards,
`none` for a handle that was not set. -/
def Store.Init {ρ : Type} (env : InitEnv ρ) (bootstrap : Bool) (nodeID : GoString) :
    Option Error × Option ρ :=
  match env.resolveTCPAddr with
  | some _ => (none, none)
  | none =>
    match env.newTCPTransport with
    | some err => (some (Error.engine err), none)
    | none =>
      match env.newFileSnapshotStore with
      | some err => (some (Error.engine err), none)
      | none =>
        match env.newBoltStore with
        | some err => (some (Error.engine err), none)
        | none =>
          match env.newRaft with
          | Except.error err => (some (Error.engine err), none)
          | Except.ok ra =>
            if bootstrap then (none, some (env.bootstrapCluster ra nodeID))
            else (none, some ra)

/-- The tail of `requestHandler` after the switch: an error left in `err` is
flushed as an error reply, the result of `Flush` being discarded. -/
def ToyKVClient.replyError {ρ ω : Type} (W : RespWriter ω)
    (r : Option Error × ToyKVClient ρ ω) : ToyKVClient ρ ω :=
  match r with
  | (some err, c1) => (c1.Flush W (Resp.error err)).2
  | (none, c1) => c1

/-- A connection on which every call of the writer fails with error code 1. -/
def brokenWriter : RespWriter Unit := { call := fun _ _ => (some 1, ()) }

/-- The requests among parse results. -/
def requestsOf : List ParseResult → List (List GoString)
  | [] => []
  | ParseResult.request req :: ps => req :: requestsOf ps
  | _ :: ps => requestsOf ps

/-- What a write does to the map, as `MemStore.Set` and `MemStore.Delete` do it. -/
def WriteOp.run (f : RaftFsm) : WriteOp → RaftFsm
  | WriteOp.set k v => { store := { m := f.store.m.insert k v } }
  | WriteOp.del k => { store := { m := f.store.m.erase k } }

/-- The three shapes of a valid multi-byte encoding at the head of `s0 :: rest`,
with the rune and width `r` that `decodeRune` gives for each. -/
def RuneShape (s0 : Byte) (rest : GoString) (r : Nat × Nat) : Prop :=
  (∃ s1 r1, rest = s1 :: r1 ∧ 0xC2 ≤ s0.val ∧ s0.val < 0xE0 ∧ 0x80 ≤ s1.val ∧ s1.val ≤ 0xBF
      ∧ r = (s0.val % 32 * 64 + s1.val % 64, 2))
  ∨ (∃ s1 s2 r2, rest = s1 :: s2 :: r2 ∧ 0xE0 ≤ s0.val ∧ s0.val < 0xF0
      ∧ (if s0.val = 0xE0 then 0xA0 else 0x80) ≤ s1.val
      ∧ s1.val ≤ (if s0.val = 0xED then 0x9F else 0xBF)
      ∧ 0x80 ≤ s2.val ∧ s2.val ≤ 0xBF
      ∧ r = (s0.val % 16 * 4096 + s1.val % 64 * 64 + s2.val % 64, 3))
  ∨ (∃ s1 s2 s3 r3, rest = s1 :: s2 :: s3 :: r3 ∧ 0xF0 ≤ s0.val ∧ s0.val ≤ 0xF4
      ∧ (if s0.val = 0xF0 then 0x90 else 0x80) ≤ s1.val
      ∧ s1.val ≤ (if s0.val = 0xF4 then 0x8F else 0xBF)
      ∧ 0x80 ≤ s2.val ∧ s2.val ≤ 0xBF ∧ 0x80 ≤ s3.val ∧ s3.val ≤ 0xBF
      ∧ r = (s0.val % 8 * 262144 + s1.val % 64 * 4096 + s2.val % 64 * 64 + s3.val % 64, 4))

/-- A field name that the string encoder would write unchanged and that is
valid UTF-8. -/
def PlainName (name : GoString) : Prop :=
  appendStringBody name.length name = name ∧ validString name = true

/-! ## Lemmas: UTF-8 and the JSON codec -/

theorem mkByte_val (n : Nat) : (mkByte n).val = n % 256 := by
  simp [mkByte, Fin.ofNat]

theorem mkByte_eq (b : Byte) (n : Nat) (h : n = b.val) : mkByte n = b := by
  apply Fin.ext
  rw [mkByte_val, h]
  exact Nat.mod_eq_of_lt b.isLt

theorem decodeRune_ascii (s0 : Byte) (rest : GoString) (h : s0.val < 0x80) :
    decodeRune (s0 :: rest) = (s0.val, 1) := by
  simp only [decodeRune, h, if_true]

theorem decodeRune_bad_lead (s0 : Byte) (rest : GoString) (h80 : 0x80 ≤ s0.val)
    (h : s0.val < 0xC2 ∨ 0xF4 < s0.val) : decodeRune (s0 :: rest) = (RuneError, 1) := by
  have e1 : ¬ s0.val < 0x80 := by omega
  simp only [decodeRune, e1, h, if_true, if_false]

theorem decodeRune_single (s0 : Byte) (h80 : 0x80 ≤ s0.val) :
    decodeRune [s0] = (RuneError, 1) := by
  have e1 : ¬ s0.val < 0x80 := by omega
  simp only [decodeRune, e1, if_false, List.length_nil]
  split_ifs <;> rfl

theorem decodeRune_two (s0 s1 : Byte) (r1 : GoString) (hlo : 0xC2 ≤ s0.val) (h2 : s0.val < 0xE0) :
    decodeRune (s0 :: s1 :: r1) =
      if s1.val < 0x80 ∨ 0xBF < s1.val then (RuneError, 1)
      else (s0.val % 32 * 64 + s1.val % 64, 2) := by
  have e1 : ¬ s0.val < 0x80 := by omega
  have e2 : ¬ (s0.val < 0xC2 ∨ 0xF4 < s0.val) := by omega
  have e3 : ¬ s0.val = 0xE0 := by omega
  have e4 : ¬ s0.val = 0xF0 := by omega
  have e5 : ¬ s0.val = 0xED := by omega
  have e6 : ¬ s0.val = 0xF4 := by omega
  have e7 : ¬ ((s1 :: r1).length + 1 < 2) := by simp
  simp only [decodeRune, e1, e2, e3, e4, e5, e6, e7, h2, if_true, if_false, le_refl]

theorem decodeRune_three (s0 s1 s2 : Byte) (r2 : GoString) (hlo : 0xE0 ≤ s0.val)
    (h3 : s0.val < 0xF0) :
    decodeRune (s0 :: s1 :: s2 :: r2) =
      if s1.val < (if s0.val = 0xE0 then 0xA0 else 0x80)
          ∨ (if s0.val = 0xED then 0x9F else 0xBF) < s1.val then (RuneError, 1)
      else if s2.val < 0x80 ∨ 0xBF < s2.val then (RuneError, 1)
      else (s0.val % 16 * 4096 + s1.val % 64 * 64 + s2.val % 64, 3) := by
  have e1 : ¬ s0.val < 0x80 := by omega
  have e2 : ¬ (s0.val < 0xC2 ∨ 0xF4 < s0.val) := by omega
  have e3 : ¬ s0.val < 0xE0 := by omega
  have e4 : ¬ s0.val = 0xF0 := by omega
  have e6 : ¬ s0.val = 0xF4 := by omega
  have e7 : ¬ ((s1 :: s2 :: r2).length + 1 < 3) := by simp
  have e8 : ¬ (3 ≤ 2) := by omega
  simp only [decodeRune, e1, e2, e3, e4, e6, e7, e8, h3, if_true, if_false, le_refl]

theorem decodeRune_three_short (s0 s1 : Byte) (hlo : 0xE0 ≤ s0.val) (h3 : s0.val ≤ 0xF4) :
    decodeRune [s0, s1] = (RuneError, 1) := by
  have e1 : ¬ s0.val < 0x80 := by omega
  have e2 : ¬ (s0.val < 0xC2 ∨ 0xF4 < s0.val) := by omega
  have e3 : ¬ s0.val < 0xE0 := by omega
  simp only [decodeRune, e1, e2, e3, if_false, List.length_cons, List.length_nil]
  split_ifs <;> first | rfl | omega

theorem decodeRune_four (s0 s1 s2 s3 : Byte) (r3 : GoString) (hlo : 0xF0 ≤ s0.val)
    (h4 : s0.val ≤ 0xF4) :
    decodeRune (s0 :: s1 :: s2 :: s3 :: r3) =
      if s1.val < (if s0.val = 0xF0 then 0x90 else 0x80)
          ∨ (if s0.val = 0xF4 then 0x8F else 0xBF) < s1.val then (RuneError, 1)
      else if s2.val < 0x80 ∨ 0xBF < s2.val then (RuneError, 1)
      else if s3.val < 0x80 ∨ 0xBF < s3.val then (RuneError, 1)
      else (s0.val % 8 * 262144 + s1.val % 64 * 4096 + s2.val % 64 * 64 + s3.val % 64, 4) := by
  have e1 : ¬ s0.val < 0x80 := by omega
  have e2 : ¬ (s0.val < 0xC2 ∨ 0xF4 < s0.val) := by omega
  have e3 : ¬ s0.val < 0xE0 := by omega
  have e4 : ¬ s0.val < 0xF0 := by omega
  have e5 : ¬ s0.val = 0xE0 := by omega
  have e6 : ¬ s0.val = 0xED := by omega
  have e7 : ¬ ((s1 :: s2 :: s3 :: r3).length + 1 < 4) := by simp
  have e8 : ¬ (4 ≤ 2) := by omega
  have e9 : ¬ (4 ≤ 3) := by omega
  simp only [decodeRune, e1, e2, e3, e4, e5, e6, e7, e8, e9, if_true, if_false, le_refl]

theorem decodeRune_four_short (s0 s1 s2 : Byte) (hlo : 0xF0 ≤ s0.val) (h4 : s0.val ≤ 0xF4) :
    decodeRune [s0, s1, s2] = (RuneError, 1) := by
  have e1 : ¬ s0.val < 0x80 := by omega
  have e2 : ¬ (s0.val < 0xC2 ∨ 0xF4 < s0.val) := by omega
  have e3 : ¬ s0.val < 0xE0 := by omega
  have e4 : ¬ s0.val < 0xF0 := by omega
  simp only [decodeRune, e1, e2, e3, e4, if_false, List.length_cons, List.length_nil]
  split_ifs <;> first | rfl | omega

theorem decodeRune_shape (s0 : Byte) (rest : GoString) (h80 : 0x80 ≤ s0.val) :
    decodeRune (s0 :: rest) = (RuneError, 1) ∨ RuneShape s0 rest (decodeRune (s0 :: rest)) := by
  have h0 := s0.isLt
  by_cases hA : s0.val < 0xC2 ∨ 0xF4 < s0.val
  · exact Or.inl (decodeRune_bad_lead s0 rest h80 hA)
  rcases rest with _ | ⟨s1, r1⟩
  · exact Or.inl (decodeRune_single s0 h80)
  by_cases h2 : s0.val < 0xE0
  · rw [decodeRune_two s0 s1 r1 (by omega) h2]
    by_cases hc : s1.val < 0x80 ∨ 0xBF < s1.val
    · left; rw [if_pos hc]
    · right; left; rw [if_neg hc]
      exact ⟨s1, r1, rfl, by omega, h2, by omega, by omega, rfl⟩
  rcases r1 with _ | ⟨s2, r2⟩
  · exact Or.inl (decodeRune_three_short s0 s1 (by omega) (by omega))
  by_cases h3 : s0.val < 0xF0
  · rw [decodeRune_three s0 s1 s2 r2 (by omega) h3]
    by_cases hc : s1.val < (if s0.val = 0xE0 then 0xA0 else 0x80)
          ∨ (if s0.val = 0xED then 0x9F else 0xBF) < s1.val
    · left; rw [if_pos hc]
    rw [if_neg hc]
    by_cases hd : s2.val < 0x80 ∨ 0xBF < s2.val
    · left; rw [if_pos hd]
    right; right; left; rw [if_neg hd]
    exact ⟨s1, s2, r2, rfl, by omega, h3, by omega, by omega, by omega, by omega, rfl⟩
  rcases r2 with _ | ⟨s3, r3⟩
  · exact Or.inl (decodeRune_four_short s0 s1 s2 (by omega) (by omega))
  rw [decodeRune_four s0 s1 s2 s3 r3 (by omega) (by omega)]
  by_cases hc : s1.val < (if s0.val = 0xF0 then 0x90 else 0x80)
          ∨ (if s0.val = 0xF4 then 0x8F else 0xBF) < s1.val
  · left; rw [if_pos hc]
  rw [if_neg hc]
  by_cases hd : s2.val < 0x80 ∨ 0xBF < s2.val
  · left; rw [if_pos hd]
  rw [if_neg hd]
  by_cases he : s3.val < 0x80 ∨ 0xBF < s3.val
  · left; rw [if_pos he]
  right; right; right; rw [if_neg he]
  exact ⟨s1, s2, s3, r3, rfl, by omega, by omega, by omega, by omega, by omega, by omega,
    by omega, by omega, rfl⟩

theorem encodeRune_of_shape (s0 : Byte) (rest : GoString) (r : Nat × Nat)
    (h : RuneShape s0 rest r) :
    encodeRune r.1 = (s0 :: rest).take r.2 ∧ 2 ≤ r.2 ∧ r.2 ≤ (s0 :: rest).length
      ∧ 0x80 ≤ r.1 := by
  have h0 := s0.isLt
  rcases h with ⟨s1, r1, rfl, a1, a2, b1, b2, rfl⟩ | ⟨s1, s2, r2, rfl, a1, a2, b1, b2, c1, c2, rfl⟩
    | ⟨s1, s2, s3, r3, rfl, a1, a2, b1, b2, c1, c2, d1, d2, rfl⟩
  · have e1 : ¬ (s0.val % 32 * 64 + s1.val % 64 ≤ 0x7F) := by omega
    have e2 : s0.val % 32 * 64 + s1.val % 64 ≤ 0x7FF := by omega
    refine ⟨?_, by simp, by simp, by omega⟩
    simp only [encodeRune, e1, e2, if_true, if_false, List.take_succ_cons, List.take_zero]
    rw [mkByte_eq s0 _ (by omega), mkByte_eq s1 _ (by omega)]
  · have h1 := s1.isLt
    have e1 : ¬ (s0.val % 16 * 4096 + s1.val % 64 * 64 + s2.val % 64 ≤ 0x7F) := by
      split_ifs at b1 b2 <;> omega
    have e2 : ¬ (s0.val % 16 * 4096 + s1.val % 64 * 64 + s2.val % 64 ≤ 0x7FF) := by
      split_ifs at b1 b2 <;> omega
    have e3 : ¬ (0x10FFFF < s0.val % 16 * 4096 + s1.val % 64 * 64 + s2.val % 64
        ∨ (0xD800 ≤ s0.val % 16 * 4096 + s1.val % 64 * 64 + s2.val % 64
          ∧ s0.val % 16 * 4096 + s1.val % 64 * 64 + s2.val % 64 ≤ 0xDFFF)) := by
      split_ifs at b1 b2 <;> omega
    have e4 : s0.val % 16 * 4096 + s1.val % 64 * 64 + s2.val % 64 ≤ 0xFFFF := by omega
    refine ⟨?_, by simp, by simp, by omega⟩
    simp only [encodeRune, e1, e2, e3, e4, if_true, if_false, List.take_succ_cons, List.take_zero]
    rw [mkByte_eq s0 _ (by omega), mkByte_eq s1 _ (by split_ifs at b1 b2 <;> omega),
      mkByte_eq s2 _ (by omega)]
  · have h1 := s1.isLt
    have e1 : ¬ (s0.val % 8 * 262144 + s1.val % 64 * 4096 + s2.val % 64 * 64 + s3.val % 64
        ≤ 0x7F) := by split_ifs at b1 b2 <;> omega
    have e2 : ¬ (s0.val % 8 * 262144 + s1.val % 64 * 4096 + s2.val % 64 * 64 + s3.val % 64
        ≤ 0x7FF) := by split_ifs at b1 b2 <;> omega
    have e3 : ¬ (0x10FFFF < s0.val % 8 * 262144 + s1.val % 64 * 4096 + s2.val % 64 * 64
          + s3.val % 64
        ∨ (0xD800 ≤ s0.val % 8 * 262144 + s1.val % 64 * 4096 + s2.val % 64 * 64 + s3.val % 64
          ∧ s0.val % 8 * 262144 + s1.val % 64 * 4096 + s2.val % 64 * 64 + s3.val % 64
            ≤ 0xDFFF)) := by
      split_ifs at b1 b2 <;> omega
    have e4 : ¬ (s0.val % 8 * 262144 + s1.val % 64 * 4096 + s2.val % 64 * 64 + s3.val % 64
        ≤ 0xFFFF) := by split_ifs at b1 b2 <;> omega
    refine ⟨?_, by simp, by simp, by omega⟩
    simp only [encodeRune, e1, e2, e3, e4, if_true, if_false, List.take_succ_cons, List.take_zero]
    rw [mkByte_eq s0 _ (by omega), mkByte_eq s1 _ (by split_ifs at b1 b2 <;> omega),
      mkByte_eq s2 _ (by omega), mkByte_eq s3 _ (by omega)]

theorem decodeRune_take_append (s0 : Byte) (rest t : GoString) (r : Nat × Nat)
    (h : RuneShape s0 rest r) (hr : decodeRune (s0 :: rest) = r) :
    decodeRune ((s0 :: rest).take r.2 ++ t) = r := by
  rcases h with ⟨s1, r1, rfl, a1, a2, b1, b2, rfl⟩ | ⟨s1, s2, r2, rfl, a1, a2, b1, b2, c1, c2, rfl⟩
    | ⟨s1, s2, s3, r3, rfl, a1, a2, b1, b2, c1, c2, d1, d2, rfl⟩
  · show decodeRune (s0 :: s1 :: t) = _
    rw [decodeRune_two _ _ _ a1 a2] at hr ⊢
    exact hr
  · show decodeRune (s0 :: s1 :: s2 :: t) = _
    rw [decodeRune_three _ _ _ _ a1 a2] at hr ⊢
    exact hr
  · show decodeRune (s0 :: s1 :: s2 :: s3 :: t) = _
    rw [decodeRune_four _ _ _ _ _ a1 a2] at hr ⊢
    exact hr

theorem hexVal_hexDigit (k : Nat) (hk : k < 16) : hexVal (hexDigit k) = some k := by
  interval_cases k <;> decide

theorem byte_eq_of_val (b : Byte) (n : Nat) (hn : n < 256) (h : b.val = n) : b = mkByte n := by
  apply Fin.ext
  rw [mkByte_val, h, Nat.mod_eq_of_lt hn]

theorem readString_escapeByte (b : Byte) (hb : b.val < 0x80) (m : Nat) (u : GoString) :
    readString (m + 1) (escapeByte b ++ u) = emit [b] (readString m u) := by
  unfold escapeByte
  by_cases hs : htmlSafe b = true
  · have hs2 := hs
    simp only [htmlSafe, Bool.and_eq_true, decide_eq_true_eq, bne_iff_ne, ne_eq] at hs2
    have e1 : ¬ b.val = 0x22 := by omega
    have e2 : ¬ b.val = 0x5C := by omega
    have e3 : ¬ b.val < 0x20 := by omega
    rw [if_pos hs]
    show readString (m + 1) (b :: u) = _
    rw [readString, if_neg e1, if_neg e2, if_neg e3, if_pos hb]
  rw [if_neg hs]
  have e5 : (0x5C : Byte).val = 0x5C := rfl
  have e6 : ¬ (0x5C : Byte).val = 0x22 := by decide
  by_cases h1 : b.val = 0x5C ∨ b.val = 0x22
  · rw [if_pos h1]
    show readString (m + 1) (0x5C :: b :: u) = _
    rw [readString, if_neg e6, if_pos e5, readEscape, if_pos (by omega)]
  rw [if_neg h1]
  by_cases h2 : b.val = 0x0A
  · rw [if_pos h2]
    show readString (m + 1) (0x5C :: 0x6E :: u) = _
    rw [readString, if_neg e6, if_pos e5, readEscape, if_neg (by decide), if_neg (by decide),
      if_neg (by decide), if_pos (by decide), byte_eq_of_val b _ (by decide) h2]
    rfl
  rw [if_neg h2]
  by_cases h3 : b.val = 0x0D
  · rw [if_pos h3]
    show readString (m + 1) (0x5C :: 0x72 :: u) = _
    rw [readString, if_neg e6, if_pos e5, readEscape, if_neg (by decide), if_neg (by decide),
      if_neg (by decide), if_neg (by decide), if_pos (by decide),
      byte_eq_of_val b _ (by decide) h3]
    rfl
  rw [if_neg h3]
  by_cases h4 : b.val = 0x09
  · rw [if_pos h4]
    show readString (m + 1) (0x5C :: 0x74 :: u) = _
    rw [readString, if_neg e6, if_pos e5, readEscape, if_neg (by decide), if_neg (by decide),
      if_neg (by decide), if_neg (by decide), if_neg (by decide), if_pos (by decide),
      byte_eq_of_val b _ (by decide) h4]
    rfl
  rw [if_neg h4]
  show readString (m + 1)
    (0x5C :: 0x75 :: 0x30 :: 0x30 :: hexDigit (b.val / 16) :: hexDigit (b.val % 16) :: u) = _
  have g : getu4 (0x5C :: 0x75 :: 0x30 :: 0x30 :: hexDigit (b.val / 16)
      :: hexDigit (b.val % 16) :: u) = some b.val := by
    rw [getu4, if_pos (by decide), hexVal_hexDigit _ (by omega), hexVal_hexDigit _ (by omega)]
    have z : hexVal (0x30 : Byte) = some 0 := by decide
    rw [z]
    simp only [Option.some.injEq]
    omega
  rw [readString, if_neg e6, if_pos e5, readEscape, if_neg (by decide), if_neg (by decide),
      if_neg (by decide), if_neg (by decide), if_neg (by decide), if_neg (by decide),
      if_pos (by decide), g]
  simp only []
  rw [if_neg (by omega)]
  have en : encodeRune b.val = [b] := by
    rw [encodeRune, if_pos (by omega), mkByte_eq b _ rfl]
  rw [en]
  rfl

theorem readString_quote (m : Nat) (t : GoString) (hm : 0 < m) :
    readString m (0x22 :: t) = some ([], t) := by
  obtain ⟨k, rfl⟩ : ∃ k, m = k + 1 := ⟨m - 1, by omega⟩
  rw [readString, if_pos (by decide)]

theorem readString_multibyte (b : Byte) (X : GoString) (m : Nat) (hb : ¬ b.val < 0x80) :
    readString (m + 1) (b :: X) =
      emit (encodeRune (decodeRune (b :: X)).1)
        (readString m ((b :: X).drop (decodeRune (b :: X)).2)) := by
  rw [readString, if_neg (by omega), if_neg (by omega), if_neg (by omega), if_neg hb]

theorem validStringAux_ascii (n : Nat) (b : Byte) (rest : GoString) (hb : b.val < 0x80) :
    validStringAux (n + 1) (b :: rest) = validStringAux n rest := by
  rw [validStringAux]
  simp only [decodeRune_ascii b rest hb]
  rw [if_neg (by simp only [RuneError]; omega)]
  rfl

theorem validStringAux_multi (n : Nat) (b : Byte) (rest : GoString) (hb : ¬ b.val < 0x80)
    (hv : validStringAux (n + 1) (b :: rest) = true) :
    RuneShape b rest (decodeRune (b :: rest))
      ∧ validStringAux n ((b :: rest).drop (decodeRune (b :: rest)).2) = true := by
  rw [validStringAux] at hv
  rcases decodeRune_shape b rest (by omega) with h | h
  · rw [h] at hv
    simp at hv
  · refine ⟨h, ?_⟩
    have h2 := (encodeRune_of_shape b rest _ h).2.1
    rw [if_neg (by omega)] at hv
    exact hv

theorem readString_u202 (r : Nat) (hr : r = 0x2028 ∨ r = 0x2029) (k : Nat) (X : GoString) :
    readString (k + 1) (lit "\\u202" ++ hexDigit (r % 16) :: X)
      = emit (encodeRune r) (readString k X) := by
  have e5 : (0x5C : Byte).val = 0x5C := rfl
  have e6 : ¬ (0x5C : Byte).val = 0x22 := by decide
  rcases hr with rfl | rfl
  · show readString (k + 1) (0x5C :: 0x75 :: 0x32 :: 0x30 :: 0x32 :: 0x38 :: X) = _
    have g : getu4 (0x5C :: 0x75 :: 0x32 :: 0x30 :: 0x32 :: 0x38 :: X) = some 0x2028 := rfl
    rw [readString, if_neg e6, if_pos e5, readEscape, if_neg (by decide), if_neg (by decide),
      if_neg (by decide), if_neg (by decide), if_neg (by decide), if_neg (by decide),
      if_pos (by decide), g]
    simp only []
    rw [if_neg (by omega)]
    rfl
  · show readString (k + 1) (0x5C :: 0x75 :: 0x32 :: 0x30 :: 0x32 :: 0x39 :: X) = _
    have g : getu4 (0x5C :: 0x75 :: 0x32 :: 0x30 :: 0x32 :: 0x39 :: X) = some 0x2029 := rfl
    rw [readString, if_neg e6, if_pos e5, readEscape, if_neg (by decide), if_neg (by decide),
      if_neg (by decide), if_neg (by decide), if_neg (by decide), if_neg (by decide),
      if_pos (by decide), g]
    simp only []
    rw [if_neg (by omega)]
    rfl

theorem emit_some (bs s t : GoString) : emit bs (some (s, t)) = some (bs ++ s, t) := rfl

theorem readString_body (n : Nat) : ∀ (s : GoString) (m : Nat) (t : GoString),
    s.length ≤ n → validStringAux n s = true → (appendStringBody n s).length < m →
    readString m (appendStringBody n s ++ 0x22 :: t) = some (s, t) := by
  induction n with
  | zero =>
    intro s m t hl _ hm
    have hs : s = [] := List.length_eq_zero.mp (by omega)
    subst hs
    exact readString_quote m t (by omega)
  | succ n ih =>
    intro s m t hl hv hm
    rcases s with _ | ⟨b, rest⟩
    · exact readString_quote m t (by omega)
    obtain ⟨k, rfl⟩ : ∃ k, m = k + 1 := ⟨m - 1, by omega⟩
    simp only [List.length_cons] at hl
    by_cases hb : b.val < 0x80
    · rw [appendStringBody, if_pos hb] at hm ⊢
      rw [validStringAux_ascii n b rest hb] at hv
      have hlen : 1 ≤ (escapeByte b).length := by
        unfold escapeByte; split_ifs <;> simp
      rw [List.length_append] at hm
      rw [List.append_assoc, readString_escapeByte b hb, ih rest k t (by omega) hv (by omega)]
      rfl
    · obtain ⟨hshape, hv2⟩ := validStringAux_multi n b rest hb hv
      obtain ⟨henc, h2, hle, h80⟩ := encodeRune_of_shape b rest _ hshape
      have hdl : ((b :: rest).drop (decodeRune (b :: rest)).2).length ≤ n := by
        rw [List.length_drop]; simp only [List.length_cons]; omega
      have htd : (b :: rest).take (decodeRune (b :: rest)).2
          ++ (b :: rest).drop (decodeRune (b :: rest)).2 = b :: rest := List.take_append_drop _ _
      rw [appendStringBody, if_neg hb] at hm ⊢
      simp only [] at hm ⊢
      rw [if_neg (by omega)] at hm ⊢
      by_cases hsp : (decodeRune (b :: rest)).1 = 0x2028 ∨ (decodeRune (b :: rest)).1 = 0x2029
      · rw [if_pos hsp] at hm ⊢
        have hl5 : (lit "\\u202").length = 5 := rfl
        rw [List.length_append, List.length_cons, hl5] at hm
        rw [List.append_assoc, List.cons_append, readString_u202 _ hsp,
          ih ((b :: rest).drop (decodeRune (b :: rest)).2) k t hdl hv2 (by omega), henc,
          emit_some, htd]
      · rw [if_neg hsp] at hm ⊢
        rw [List.length_append] at hm
        have htl : ((b :: rest).take (decodeRune (b :: rest)).2).length
            = (decodeRune (b :: rest)).2 := by
          rw [List.length_take]; simp only [List.length_cons] at hle ⊢; omega
        obtain ⟨j, hj⟩ : ∃ j, (decodeRune (b :: rest)).2 = j + 1 :=
          ⟨(decodeRune (b :: rest)).2 - 1, by omega⟩
        have hcons : (b :: rest).take (decodeRune (b :: rest)).2 = b :: rest.take j := by
          rw [hj]; rfl
        have hdec := decodeRune_take_append b rest
          (appendStringBody n ((b :: rest).drop (decodeRune (b :: rest)).2) ++ 0x22 :: t) _ hshape rfl
        rw [List.append_assoc]
        rw [hcons] at hdec ⊢
        rw [List.cons_append] at hdec ⊢
        rw [readString_multibyte _ _ _ hb, hdec, ← List.cons_append, ← hcons,
          List.drop_left' htl,
          ih ((b :: rest).drop (decodeRune (b :: rest)).2) k t hdl hv2 (by omega), henc,
          emit_some, htd]

theorem readString_appendString (s : GoString) (hv : validString s = true) (m : Nat)
    (t : GoString) (hm : (appendStringBody s.length s).length < m) :
    readString m (appendStringBody s.length s ++ 0x22 :: t) = some (s, t) :=
  readString_body s.length s m t (le_refl _) hv hm

theorem skipSpace_of_not_space (b : Byte) (rest : GoString) (h : isSpace b = false) :
    skipSpace (b :: rest) = b :: rest := by
  rw [skipSpace, h]; rfl

theorem decodeMembers_member (n : Nat) (name v : GoString) (hn : PlainName name)
    (hv : validString v = true) (d : Byte) (hd : isSpace d = false) (rest : GoString)
    (c : KeyValueCommand) :
    decodeMembers (n + 1) (marshalMember (name, v) ++ d :: rest) c =
      if d.val = 0x2C then decodeMembers n (skipSpace rest) (setField c name v)
      else if d.val = 0x7D then some (setField c name v, rest)
      else none := by
  have hshape : marshalMember (name, v) ++ d :: rest
      = 0x22 :: (appendStringBody name.length name ++ 0x22 :: 0x3A :: 0x22 ::
          (appendStringBody v.length v ++ 0x22 :: d :: rest)) := by
    rw [hn.1]
    simp [marshalMember, appendString]
  rw [hshape, decodeMembers, if_neg (by decide)]
  rw [readString_appendString name hn.2 _ _ (by simp)]
  simp only []
  rw [skipSpace_of_not_space _ _ (by decide)]
  simp only []
  rw [if_neg (by decide), skipSpace_of_not_space _ _ (by decide)]
  simp only []
  rw [if_neg (by decide), readString_appendString v hv _ _ (by simp)]
  simp only []
  rw [skipSpace_of_not_space _ _ hd]

theorem marshalMember_cons (p : GoString × GoString) :
    ∃ tl, marshalMember p = 0x22 :: tl := ⟨_, rfl⟩

theorem joinMembers_cons_cons (m m2 : GoString) (ms : List GoString) :
    joinMembers (m :: m2 :: ms) = m ++ 0x2C :: joinMembers (m2 :: ms) := rfl

theorem joinMembers_head (p : GoString × GoString) (L : List (GoString × GoString)) :
    ∃ tl, joinMembers ((p :: L).map marshalMember) = 0x22 :: tl := by
  rcases L with _ | ⟨q, L⟩
  · exact ⟨_, rfl⟩
  · exact ⟨_, rfl⟩

theorem decodeMembers_join (L : List (GoString × GoString)) :
    ∀ (p : GoString × GoString) (n : Nat) (c : KeyValueCommand) (rest : GoString),
      (∀ q ∈ p :: L, PlainName q.1 ∧ validString q.2 = true) → L.length < n →
      decodeMembers n (joinMembers ((p :: L).map marshalMember) ++ 0x7D :: rest) c
        = some ((p :: L).foldl (fun c q => setField c q.1 q.2) c, rest) := by
  induction L with
  | nil =>
    intro p n c rest hp hn
    obtain ⟨k, rfl⟩ : ∃ k, n = k + 1 := ⟨n - 1, by simp at hn; omega⟩
    have h := hp p (List.mem_cons_self _ _)
    show decodeMembers (k + 1) (marshalMember (p.1, p.2) ++ 0x7D :: rest) c = _
    rw [decodeMembers_member k p.1 p.2 h.1 h.2 _ (by decide), if_neg (by decide),
      if_pos (by decide)]
    rfl
  | cons q L ih =>
    intro p n c rest hp hn
    obtain ⟨k, rfl⟩ : ∃ k, n = k + 1 := ⟨n - 1, by simp at hn; omega⟩
    have h := hp p (List.mem_cons_self _ _)
    obtain ⟨tl, htl⟩ := joinMembers_head q L
    have hstep : joinMembers ((p :: q :: L).map marshalMember) ++ 0x7D :: rest
        = marshalMember (p.1, p.2) ++ 0x2C ::
            (joinMembers ((q :: L).map marshalMember) ++ 0x7D :: rest) := by
      simp only [List.map_cons, joinMembers_cons_cons, List.append_assoc, List.cons_append]
    rw [hstep, decodeMembers_member k p.1 p.2 h.1 h.2 _ (by decide), if_pos (by decide)]
    have hsk : skipSpace (joinMembers ((q :: L).map marshalMember) ++ 0x7D :: rest)
        = joinMembers ((q :: L).map marshalMember) ++ 0x7D :: rest := by
      rw [htl, List.cons_append, skipSpace_of_not_space _ _ (by decide)]
    rw [hsk, ih q k (setField c p.1 p.2) rest
      (fun x hx => hp x (List.mem_cons_of_mem _ hx)) (by simp at hn; omega)]
    rfl

theorem joinMembers_length (L : List (GoString × GoString)) :
    L.length ≤ (joinMembers (L.map marshalMember)).length := by
  induction L with
  | nil => simp
  | cons p L ih =>
    rcases L with _ | ⟨q, L⟩
    · obtain ⟨tl, h⟩ := marshalMember_cons p
      show 1 ≤ (marshalMember p).length
      rw [h]; simp
    · simp only [List.map_cons, joinMembers_cons_cons, List.length_append, List.length_cons] at ih ⊢
      omega

theorem jsonUnmarshal_members (L : List (GoString × GoString))
    (hL : ∀ q ∈ L, PlainName q.1 ∧ validString q.2 = true) :
    jsonUnmarshal (0x7B :: (joinMembers (L.map marshalMember) ++ [0x7D]))
      = some (L.foldl (fun c q => setField c q.1 q.2)
          { Operation := [], Key := [], Value := [] }) := by
  rcases L with _ | ⟨p, L⟩
  · rfl
  · obtain ⟨tl, htl⟩ := joinMembers_head p L
    have hlen := joinMembers_length (p :: L)
    have hdec := decodeMembers_join L p
      (0x7B :: (joinMembers ((p :: L).map marshalMember) ++ [0x7D])).length
      { Operation := [], Key := [], Value := [] } [] hL
      (by simp only [List.length_cons, List.length_append] at hlen ⊢; omega)
    rw [jsonUnmarshal, skipSpace_of_not_space _ _ (by decide)]
    simp only []
    rw [if_neg (by decide)]
    rw [htl] at hdec ⊢
    rw [List.cons_append, skipSpace_of_not_space _ _ (by decide)]
    simp only []
    rw [if_neg (by decide)]
    rw [List.cons_append] at hdec
    rw [hdec]
    rfl

theorem plainName_op : PlainName (lit "op") := ⟨by decide, by decide⟩
theorem plainName_key : PlainName (lit "key") := ⟨by decide, by decide⟩
theorem plainName_value : PlainName (lit "value") := ⟨by decide, by decide⟩

theorem setField_op (c : KeyValueCommand) (v : GoString) :
    setField c (lit "op") v = { c with Operation := v } := by
  rw [setField, if_pos rfl]

theorem setField_key (c : KeyValueCommand) (v : GoString) :
    setField c (lit "key") v = { c with Key := v } := by
  rw [setField, if_neg (by decide), if_pos rfl]

theorem setField_value (c : KeyValueCommand) (v : GoString) :
    setField c (lit "value") v = { c with Value := v } := by
  rw [setField, if_neg (by decide), if_neg (by decide), if_pos rfl]

theorem jsonUnmarshal_jsonMarshal (c : KeyValueCommand) (h1 : validString c.Operation = true)
    (h2 : validString c.Key = true) (h3 : validString c.Value = true) :
    jsonUnmarshal (jsonMarshal c) = some c := by
  rw [jsonMarshal, jsonUnmarshal_members]
  · rcases c with ⟨op, key, value⟩
    rcases op with _ | ⟨a, op⟩ <;> rcases key with _ | ⟨b, key⟩ <;>
      rcases value with _ | ⟨d, value⟩ <;>
      simp [List.filter, setField_op, setField_key, setField_value]
  · intro q hq
    have hq2 := List.mem_of_mem_filter hq
    simp only [List.mem_cons, List.mem_singleton, List.not_mem_nil, or_false] at hq2
    rcases hq2 with rfl | rfl | rfl
    · exact ⟨plainName_op, h1⟩
    · exact ⟨plainName_key, h2⟩
    · exact ⟨plainName_value, h3⟩

/-! ## Lemmas: the state machine, the store and the session handler -/

theorem validString_nil : validString [] = true := rfl

theorem toUpper_SET (U : CaseTables) : ToUpper U (lit "SET") = lit "SET" := rfl

theorem toUpper_DEL (U : CaseTables) : ToUpper U (lit "DEL") = lit "DEL" := rfl

theorem validString_SET : validString (lit "SET") = true := by decide

theorem validString_DEL : validString (lit "DEL") = true := by decide

theorem apply_entry (U : CaseTables) (f : RaftFsm) (op : WriteOp) (hv : op.valid = true) :
    RaftFsm.Apply jsonUnmarshal U f op.entry = (none, op.run f) := by
  cases op with
  | set k v =>
    simp only [WriteOp.valid, Bool.and_eq_true] at hv
    have h := jsonUnmarshal_jsonMarshal (NewSetCommand k v) validString_SET hv.1 hv.2
    unfold RaftFsm.Apply
    rw [WriteOp.entry, WriteOp.command, h]
    show (if ToUpper U (lit "SET") = lit "SET" then _ else _) = _
    rw [if_pos (toUpper_SET U)]
    rfl
  | del k =>
    simp only [WriteOp.valid] at hv
    have h := jsonUnmarshal_jsonMarshal (NewDelCommand k) validString_DEL hv validString_nil
    unfold RaftFsm.Apply
    rw [WriteOp.entry, WriteOp.command, h]
    show (if ToUpper U (lit "DEL") = lit "SET" then _
      else if ToUpper U (lit "DEL") = lit "DEL" then _ else _) = _
    rw [toUpper_DEL, if_neg (by decide), if_pos rfl]
    rfl

theorem applyAll_append (J : GoString → Option KeyValueCommand) (U : CaseTables) (f : RaftFsm)
    (l : List GoString) (e : GoString) :
    RaftFsm.applyAll J U f (l ++ [e]) = (RaftFsm.Apply J U (RaftFsm.applyAll J U f l) e).2 := by
  simp [RaftFsm.applyAll, List.foldl_append]

theorem lastWriterWins_append (l : List WriteOp) (op : WriteOp) (key : GoString) :
    lastWriterWins (l ++ [op]) key =
      if op.key = key then
        (match op with
          | WriteOp.set _ v => some v
          | WriteOp.del _ => none)
      else lastWriterWins l key := by
  unfold lastWriterWins
  by_cases h : op.key = key
  · rw [if_pos h, List.filter_append]
    have : List.filter (fun op => decide (op.key = key)) [op] = [op] := by simp [List.filter, h]
    rw [this, List.getLast?_append]
    cases op <;> simp
  · rw [if_neg h, List.filter_append]
    have : List.filter (fun op => decide (op.key = key)) [op] = [] := by simp [List.filter, h]
    rw [this, List.append_nil]

theorem lowerByte_letter (a l : Byte) (h1 : 0x61 ≤ l.val) (h2 : l.val ≤ 0x7A)
    (h : lowerByte a = l) : a.val < 0x80 ∧ upperByte a = upperByte l := by
  have ha := a.isLt
  have hv : (lowerByte a).val = l.val := by rw [h]
  have hl : upperByte l = mkByte (l.val - 0x20) := by
    unfold upperByte; rw [if_pos ⟨h1, h2⟩]
  rw [hl]
  unfold lowerByte at hv
  unfold upperByte
  split_ifs at hv ⊢ with c1 c2 c2
  · rw [mkByte_val] at hv; omega
  · refine ⟨by omega, ?_⟩
    rw [hv]
  · rw [mkByte_val] at hv
    refine ⟨by omega, ?_⟩
    apply Fin.ext
    rw [mkByte_val]
    omega
  · omega

theorem map_upper_of_map_lower (op : GoString) :
    ∀ t : GoString, (∀ b ∈ t, 0x61 ≤ b.val ∧ b.val ≤ 0x7A) → op.map lowerByte = t →
      op.all (fun c => decide (c.val < 0x80)) = true ∧ op.map upperByte = t.map upperByte := by
  induction op with
  | nil => intro t _ h; subst h; exact ⟨rfl, rfl⟩
  | cons a op ih =>
    intro t ht h
    rcases t with _ | ⟨l, t⟩
    · simp at h
    · simp only [List.map_cons, List.cons.injEq] at h
      obtain ⟨h1, h2⟩ := ht l (List.mem_cons_self _ _)
      obtain ⟨g1, g2⟩ := lowerByte_letter a l h1 h2 h.1
      obtain ⟨i1, i2⟩ := ih t (fun b hb => ht b (List.mem_cons_of_mem _ hb)) h.2
      refine ⟨?_, ?_⟩
      · simp only [List.all_cons, Bool.and_eq_true, decide_eq_true_eq]
        exact ⟨g1, i1⟩
      · simp only [List.map_cons, g2, i2]

theorem toUpper_of_lower (U : CaseTables) (op t : GoString)
    (ht : t.all (fun b => decide (0x61 ≤ b.val ∧ b.val ≤ 0x7A)) = true)
    (h : op.map lowerByte = t) : ToUpper U op = t.map upperByte := by
  have ht2 : ∀ b ∈ t, 0x61 ≤ b.val ∧ b.val ≤ 0x7A := by
    intro b hb
    have := List.all_eq_true.mp ht b hb
    simpa using this
  obtain ⟨h1, h2⟩ := map_upper_of_map_lower op t ht2 h
  rw [ToUpper, if_pos h1, h2]

theorem toUpper_of_lower_set (U : CaseTables) (op : GoString)
    (h : op.map lowerByte = lit "set") : ToUpper U op = lit "SET" := by
  rw [toUpper_of_lower U op (lit "set") (by decide) h]
  rfl

theorem toUpper_of_lower_del (U : CaseTables) (op : GoString)
    (h : op.map lowerByte = lit "del") : ToUpper U op = lit "DEL" := by
  rw [toUpper_of_lower U op (lit "del") (by decide) h]
  rfl

theorem flush_string_written {ρ ω : Type} (W : RespWriter ω) (c : ToyKVClient ρ ω)
    (v : GoString) :
    (c.Flush W (Resp.string v)).2.written
        = c.written ++ WriterCall.WriteString v ::
            (if (W.call c.rWriter (WriterCall.WriteString v)).1 = none
              then [WriterCall.Flush] else [])
      ∧ (c.Flush W (Resp.string v)).2.store = c.store
      ∧ (c.Flush W (Resp.string v)).2.storeCalls = c.storeCalls := by
  unfold ToyKVClient.Flush ToyKVClient.Write ToyKVClient.writer
  cases h : (W.call c.rWriter (WriterCall.WriteString v)).1 <;> simp [h]

theorem dispatch_get {ρ ω : Type} (E : RaftEngine ρ) (W : RespWriter ω)
    (c : ToyKVClient ρ ω) (hc : c.cmd = lit "get") :
    ToyKVClient.dispatch E W c =
      match c.handleGet with
      | ((v, none), c1) => (none, (c1.Flush W (Resp.string v)).2)
      | ((_, some err), c1) => (some err, c1) := by
  unfold ToyKVClient.dispatch
  rw [hc, if_neg (by decide), if_neg (by decide), if_neg (by decide), if_neg (by decide),
    if_neg (by decide), if_pos rfl]

theorem dispatch_set {ρ ω : Type} (E : RaftEngine ρ) (W : RespWriter ω)
    (c : ToyKVClient ρ ω) (hc : c.cmd = lit "set") :
    ToyKVClient.dispatch E W c = ToyKVClient.replyStatus W (lit "OK") (c.handleSet E) := by
  unfold ToyKVClient.dispatch
  rw [hc, if_neg (by decide), if_pos rfl]

theorem requestHandler_get {ρ ω : Type} (E : RaftEngine ρ) (W : RespWriter ω) (U : CaseTables)
    (c : ToyKVClient ρ ω) (name key : GoString) (h : ToLower U name = lit "get") :
    ToyKVClient.requestHandler E W U c [name, key]
      = (none, (ToyKVClient.Flush W
          { c with cmd := lit "get", args := [key],
                   storeCalls := c.storeCalls ++ [StoreCall.Get key] }
          (Resp.string ((c.store.fsm.store.m.lookup key).getD []))).2) := by
  unfold ToyKVClient.requestHandler
  simp only [h]
  rw [dispatch_get E W _ rfl]
  rfl

theorem requestHandler_set {ρ ω : Type} (E : RaftEngine ρ) (W : RespWriter ω) (U : CaseTables)
    (c : ToyKVClient ρ ω) (name key value : GoString) (h : ToLower U name = lit "set")
    (hlead : E.State c.store.raft = RaftState.Leader)
    (hok : (E.Apply c.store.raft c.store.fsm (jsonMarshal (NewSetCommand key value))).1 = none) :
    ToyKVClient.requestHandler E W U c [name, key, value]
      = (none, (ToyKVClient.Flush W
          { c with cmd := lit "set", args := [key, value],
                   store := (Store.Set E c.store key value).2,
                   storeCalls := c.storeCalls ++ [StoreCall.Set key value] }
          (Resp.string (lit "OK"))).2) := by
  have hs : (Store.Set E c.store key value).1 = none := by
    simp [Store.Set, Store.propose, hlead, hok]
  unfold ToyKVClient.requestHandler
  simp only [h]
  rw [dispatch_set E W _ rfl]
  unfold ToyKVClient.handleSet
  simp only []
  unfold ToyKVClient.replyStatus
  simp only [hs]

theorem requestHandler_get_written {ρ ω : Type} (E : RaftEngine ρ) (W : RespWriter ω)
    (U : CaseTables) (c : ToyKVClient ρ ω) (name key : GoString)
    (h : ToLower U name = lit "get") :
    (ToyKVClient.requestHandler E W U c [name, key]).2.written
      = c.written ++ WriterCall.WriteString ((c.store.fsm.store.m.lookup key).getD []) ::
          (if (W.call c.rWriter
                (WriterCall.WriteString ((c.store.fsm.store.m.lookup key).getD []))).1 = none
            then [WriterCall.Flush] else []) := by
  rw [requestHandler_get E W U c name key h]
  exact (flush_string_written W _ _).1

theorem soloEngine_commits (U : CaseTables) (servers : List Server) :
    (soloEngine U).CommitsAt U { state := RaftState.Leader, servers := servers } := by
  intro f data
  simp [soloEngine]

/-! ## The claims -/

/-! ### C1 -/

/-- C1, as amended: for every finite sequence of SET and DEL commands whose
keys and values are valid UTF-8, applying `RaftFsm.Apply` to their encoded log
entries in order, starting from the empty store, yields a map that equals the
last-writer-wins projection of the sequence. -/
theorem apply_log_last_writer_wins (U : CaseTables) (ops : List WriteOp)
    (hv : ∀ op ∈ ops, op.valid = true) (key : GoString) :
    (RaftFsm.applyAll jsonUnmarshal U NewFSM (ops.map WriteOp.entry)).store.m.lookup key
      = lastWriterWins ops key := by
  induction ops using List.reverseRecOn with
  | nil => rfl
  | append_singleton l op ih =>
    have hl : ∀ o ∈ l, o.valid = true := fun o ho => hv o (List.mem_append_left _ ho)
    have ho : op.valid = true := hv op (List.mem_append_right _ (List.mem_singleton_self _))
    rw [List.map_append, List.map_singleton, applyAll_append, apply_entry U _ op ho,
      lastWriterWins_append, ← ih hl]
    cases op with
    | set k v =>
      by_cases h : k = key
      · subst h; simp [WriteOp.run, WriteOp.key]
      · simp [WriteOp.run, WriteOp.key, h, AList.lookup_insert_ne (Ne.symm h)]
    | del k =>
      by_cases h : k = key
      · subst h; simp [WriteOp.run, WriteOp.key]
      · simp [WriteOp.run, WriteOp.key, h, AList.lookup_erase_ne (Ne.symm h)]

/-- C1, witness: three writes with a non-ASCII key (the euro sign), read back at
that key after its DEL and at the key that was only SET. -/
theorem apply_log_last_writer_wins_witness :
    (∀ op ∈ [WriteOp.set [0xE2, 0x82, 0xAC] (lit "1"), WriteOp.set (lit "b") (lit "2"),
        WriteOp.del [0xE2, 0x82, 0xAC]], op.valid = true)
      ∧ (RaftFsm.applyAll jsonUnmarshal asciiTables NewFSM
          ([WriteOp.set [0xE2, 0x82, 0xAC] (lit "1"), WriteOp.set (lit "b") (lit "2"),
            WriteOp.del [0xE2, 0x82, 0xAC]].map WriteOp.entry)).store.m.lookup (lit "b")
        = lastWriterWins [WriteOp.set [0xE2, 0x82, 0xAC] (lit "1"),
            WriteOp.set (lit "b") (lit "2"), WriteOp.del [0xE2, 0x82, 0xAC]] (lit "b") :=
  ⟨by decide, apply_log_last_writer_wins asciiTables _ (by decide) (lit "b")⟩

/-- C1, counterexample to the claim as stated: after the single command
SET(key, "a") whose key is the one byte 0xFF, the map has no entry under that
key (the entry is under the three bytes of U+FFFD), while the last-writer-wins
projection maps the key to "a". -/
theorem apply_log_not_last_writer_wins :
    (RaftFsm.applyAll jsonUnmarshal asciiTables NewFSM
        ([WriteOp.set [0xFF] (lit "a")].map WriteOp.entry)).store.m.lookup [0xFF] = none
      ∧ (RaftFsm.applyAll jsonUnmarshal asciiTables NewFSM
        ([WriteOp.set [0xFF] (lit "a")].map WriteOp.entry)).store.m.lookup [0xEF, 0xBF, 0xBD]
          = some (lit "a")
      ∧ lastWriterWins [WriteOp.set [0xFF] (lit "a")] [0xFF] = some (lit "a") := by
  decide

/-! ### C2 -/

/-- C2: `Store.Set` and `Store.Delete` return `ErrNotLeader`, having made only
the `State` query on the engine, when the engine's state is not Leader; when it
is Leader they propose the encoded command once and return the result of the
engine's future unchanged.  `ErrNotLeader` is returned exactly when the state
is not Leader. -/
theorem store_write_leader_gate {ρ : Type} (E : RaftEngine ρ) (s : Store ρ)
    (key value : GoString) :
    (E.State s.raft ≠ RaftState.Leader →
      Store.Set E s key value
          = (some Error.ErrNotLeader, { s with calls := s.calls ++ [RaftCall.State] })
        ∧ Store.Delete E s key
          = (some Error.ErrNotLeader, { s with calls := s.calls ++ [RaftCall.State] }))
    ∧ (E.State s.raft = RaftState.Leader →
      Store.Set E s key value
          = ((E.Apply s.raft s.fsm (jsonMarshal (NewSetCommand key value))).1.map Error.engine,
            { raft := (E.Apply s.raft s.fsm (jsonMarshal (NewSetCommand key value))).2.1,
              fsm := (E.Apply s.raft s.fsm (jsonMarshal (NewSetCommand key value))).2.2,
              calls := s.calls ++ [RaftCall.State,
                RaftCall.Apply (jsonMarshal (NewSetCommand key value))] })
        ∧ Store.Delete E s key
          = ((E.Apply s.raft s.fsm (jsonMarshal (NewDelCommand key))).1.map Error.engine,
            { raft := (E.Apply s.raft s.fsm (jsonMarshal (NewDelCommand key))).2.1,
              fsm := (E.Apply s.raft s.fsm (jsonMarshal (NewDelCommand key))).2.2,
              calls := s.calls ++ [RaftCall.State,
                RaftCall.Apply (jsonMarshal (NewDelCommand key))] }))
    ∧ ((Store.Set E s key value).1 = some Error.ErrNotLeader
        ↔ E.State s.raft ≠ RaftState.Leader)
    ∧ ((Store.Delete E s key).1 = some Error.ErrNotLeader
        ↔ E.State s.raft ≠ RaftState.Leader) := by
  refine ⟨?_, ?_, ?_, ?_⟩
  · intro h
    simp [Store.Set, Store.Delete, h]
  · intro h
    simp [Store.Set, Store.Delete, Store.propose, h]
  · by_cases h : E.State s.raft = RaftState.Leader
    · simp only [Store.Set, Store.propose, h, ne_eq, not_true_eq_false, if_false]
      cases (E.Apply s.raft s.fsm (jsonMarshal (NewSetCommand key value))).1 <;> simp
    · simp [Store.Set, h]
  · by_cases h : E.State s.raft = RaftState.Leader
    · simp only [Store.Delete, Store.propose, h, ne_eq, not_true_eq_false, if_false]
      cases (E.Apply s.raft s.fsm (jsonMarshal (NewDelCommand key))).1 <;> simp
    · simp [Store.Delete, h]

/-! ### C3 -/

/-- C3, as amended: for every key and value that are valid UTF-8, decoding the
bytes that encode `NewSetCommand key value` or `NewDelCommand key` succeeds and
gives back the original command. -/
theorem codec_round_trip (key value : GoString) (hk : validString key = true)
    (hv : validString value = true) :
    jsonUnmarshal (jsonMarshal (NewSetCommand key value)) = some (NewSetCommand key value)
      ∧ jsonUnmarshal (jsonMarshal (NewDelCommand key)) = some (NewDelCommand key) :=
  ⟨jsonUnmarshal_jsonMarshal (NewSetCommand key value) validString_SET hk hv,
    jsonUnmarshal_jsonMarshal (NewDelCommand key) validString_DEL hk validString_nil⟩

/-- C3, witness: a key holding a quote, a line feed, an angle bracket and the
euro sign, and the value "1". -/
theorem codec_round_trip_witness :
    (validString [0x22, 0x0A, 0x3C, 0xE2, 0x82, 0xAC] = true ∧ validString (lit "1") = true)
      ∧ jsonUnmarshal (jsonMarshal (NewSetCommand [0x22, 0x0A, 0x3C, 0xE2, 0x82, 0xAC] (lit "1")))
        = some (NewSetCommand [0x22, 0x0A, 0x3C, 0xE2, 0x82, 0xAC] (lit "1"))
      ∧ jsonUnmarshal (jsonMarshal (NewDelCommand [0x22, 0x0A, 0x3C, 0xE2, 0x82, 0xAC]))
        = some (NewDelCommand [0x22, 0x0A, 0x3C, 0xE2, 0x82, 0xAC]) :=
  ⟨⟨by decide, by decide⟩,
    codec_round_trip [0x22, 0x0A, 0x3C, 0xE2, 0x82, 0xAC] (lit "1") (by decide) (by decide)⟩

/-- C3, counterexample to the claim as stated: the key made of the one byte
0xFF, which is not valid UTF-8, comes back as the three bytes of U+FFFD, for
the SET command and for the DEL command. -/
theorem codec_round_trip_fails :
    jsonUnmarshal (jsonMarshal (NewSetCommand [0xFF] (lit "a")))
        = some (NewSetCommand [0xEF, 0xBF, 0xBD] (lit "a"))
      ∧ jsonUnmarshal (jsonMarshal (NewSetCommand [0xFF] (lit "a")))
        ≠ some (NewSetCommand [0xFF] (lit "a"))
      ∧ jsonUnmarshal (jsonMarshal (NewDelCommand [0xFF])) ≠ some (NewDelCommand [0xFF]) := by
  decide

/-! ### C4 -/

/-- C4: with `servers` the configuration read from the engine: when a server
with `nodeID` is among them, `Store.Join` returns the already-joined error,
having made only the `GetConfiguration` call, and leaves the engine as it was;
otherwise it makes one `AddVoter nodeID address` call, returns nil exactly when
the engine accepts it, and then (for an engine that lists an accepted voter in
its configuration) `nodeID` is a member. -/
theorem store_join_membership {ρ : Type} (E : RaftEngine ρ) (s : Store ρ)
    (nodeID address : GoString) (servers : List Server)
    (hcfg : E.GetConfiguration s.raft = Except.ok servers) :
    (servers.any (fun server => server.ID = nodeID) = true →
      Store.Join E s nodeID address
        = (some (Error.alreadyJoined nodeID),
            { s with calls := s.calls ++ [RaftCall.GetConfiguration] }))
    ∧ (servers.any (fun server => server.ID = nodeID) = false →
      Store.Join E s nodeID address
          = ((E.AddVoter s.raft nodeID address).1.map Error.engine,
              { raft := (E.AddVoter s.raft nodeID address).2, fsm := s.fsm,
                calls := s.calls ++ [RaftCall.GetConfiguration,
                  RaftCall.AddVoter nodeID address] })
        ∧ ((Store.Join E s nodeID address).1 = none
            ↔ (E.AddVoter s.raft nodeID address).1 = none)
        ∧ (E.AddVoterJoins → (Store.Join E s nodeID address).1 = none →
            ∃ servers2, E.GetConfiguration (Store.Join E s nodeID address).2.raft
                = Except.ok servers2
              ∧ servers2.any (fun server => server.ID = nodeID) = true)) := by
  constructor
  · intro h
    simp only [Store.Join, hcfg, h, if_true]
  · intro h
    have hj : Store.Join E s nodeID address
          = ((E.AddVoter s.raft nodeID address).1.map Error.engine,
              { raft := (E.AddVoter s.raft nodeID address).2, fsm := s.fsm,
                calls := s.calls ++ [RaftCall.GetConfiguration,
                  RaftCall.AddVoter nodeID address] }) := by
      simp [Store.Join, hcfg, h]
    refine ⟨hj, ?_, ?_⟩
    · rw [hj]; simp
    · intro hE hn
      rw [hj] at hn ⊢
      simp only [Option.map_eq_none'] at hn
      exact hE s.raft nodeID address hn

/-- C4, witness: on the reference engine with the one server n1, joining n1
again is refused. -/
theorem store_join_membership_witness :
    (soloEngine asciiTables).GetConfiguration
        (soloStore RaftState.Leader [⟨lit "n1", lit "a1"⟩] NewFSM).raft
        = Except.ok [⟨lit "n1", lit "a1"⟩]
      ∧ Store.Join (soloEngine asciiTables)
          (soloStore RaftState.Leader [⟨lit "n1", lit "a1"⟩] NewFSM) (lit "n1") (lit "a9")
        = (some (Error.alreadyJoined (lit "n1")),
            { soloStore RaftState.Leader [⟨lit "n1", lit "a1"⟩] NewFSM with
              calls := [RaftCall.GetConfiguration] }) :=
  ⟨rfl, (store_join_membership (soloEngine asciiTables)
    (soloStore RaftState.Leader [⟨lit "n1", lit "a1"⟩] NewFSM) (lit "n1") (lit "a9")
    [⟨lit "n1", lit "a1"⟩] rfl).1 (by decide)⟩

/-! ### C5 -/

/-- C5: with `servers` the configuration read from the engine: when no server
has `nodeID`, `Store.Leave` returns nil, having made only the
`GetConfiguration` call, so the engine is as it was and a second `Leave` does
the same; when a server has `nodeID`, `Store.Leave` makes one
`RemoveServer nodeID` call and returns the engine's result unchanged. -/
theorem store_leave_membership {ρ : Type} (E : RaftEngine ρ) (s : Store ρ)
    (nodeID : GoString) (servers : List Server)
    (hcfg : E.GetConfiguration s.raft = Except.ok servers) :
    (servers.any (fun server => server.ID = nodeID) = false →
      Store.Leave E s nodeID
          = (none, { s with calls := s.calls ++ [RaftCall.GetConfiguration] })
        ∧ (Store.Leave E (Store.Leave E s nodeID).2 nodeID).1 = none
        ∧ (Store.Leave E (Store.Leave E s nodeID).2 nodeID).2.raft = s.raft)
    ∧ (servers.any (fun server => server.ID = nodeID) = true →
      Store.Leave E s nodeID
        = ((E.RemoveServer s.raft nodeID).1.map Error.engine,
            { raft := (E.RemoveServer s.raft nodeID).2, fsm := s.fsm,
              calls := s.calls ++ [RaftCall.GetConfiguration,
                RaftCall.RemoveServer nodeID] })) := by
  constructor
  · intro h
    have hl : ∀ t : Store ρ, t.raft = s.raft → Store.Leave E t nodeID
        = (none, { t with calls := t.calls ++ [RaftCall.GetConfiguration] }) := by
      intro t ht
      simp [Store.Leave, ht, hcfg, h]
    refine ⟨hl s rfl, ?_, ?_⟩
    · rw [hl s rfl]
      exact congrArg Prod.fst
        (hl { s with calls := s.calls ++ [RaftCall.GetConfiguration] } rfl)
    · rw [hl s rfl]
      exact congrArg (fun r => r.2.raft)
        (hl { s with calls := s.calls ++ [RaftCall.GetConfiguration] } rfl)
  · intro h
    simp [Store.Leave, hcfg, h]

/-- C5, witness: on the reference engine with the one server n1, the leave of
the unknown node3 returns nil after the one configuration read. -/
theorem store_leave_membership_witness :
    (soloEngine asciiTables).GetConfiguration
        (soloStore RaftState.Leader [⟨lit "n1", lit "a1"⟩] NewFSM).raft
        = Except.ok [⟨lit "n1", lit "a1"⟩]
      ∧ Store.Leave (soloEngine asciiTables)
          (soloStore RaftState.Leader [⟨lit "n1", lit "a1"⟩] NewFSM) (lit "node3")
        = (none, { soloStore RaftState.Leader [⟨lit "n1", lit "a1"⟩] NewFSM with
              calls := [RaftCall.GetConfiguration] }) :=
  ⟨rfl, ((store_leave_membership (soloEngine asciiTables)
    (soloStore RaftState.Leader [⟨lit "n1", lit "a1"⟩] NewFSM) (lit "node3")
    [⟨lit "n1", lit "a1"⟩] rfl).1 (by decide)).1⟩

/-! ### C6 -/

/-- C6, as amended: for every key and value that are valid UTF-8, on a node
that is leader and whose engine commits the proposal and delivers it to
`RaftFsm.Apply`, the request `set key value` is answered by the status reply OK
(written, then flushed when the write succeeded), and a following `get key` is
answered by a status reply carrying that same value. -/
theorem set_then_get {ρ ω : Type} (E : RaftEngine ρ) (W : RespWriter ω) (U : CaseTables)
    (c : ToyKVClient ρ ω) (setName getName key value : GoString)
    (hset : ToLower U setName = lit "set") (hget : ToLower U getName = lit "get")
    (hlead : E.State c.store.raft = RaftState.Leader)
    (hcommit : E.CommitsAt U c.store.raft)
    (hk : validString key = true) (hv : validString value = true) :
    (ToyKVClient.requestHandler E W U c [setName, key, value]).2.written
        = c.written ++ WriterCall.WriteString (lit "OK") ::
            (if (W.call c.rWriter (WriterCall.WriteString (lit "OK"))).1 = none
              then [WriterCall.Flush] else [])
      ∧ (ToyKVClient.requestHandler E W U
            (ToyKVClient.requestHandler E W U c [setName, key, value]).2
            [getName, key]).2.written
        = (ToyKVClient.requestHandler E W U c [setName, key, value]).2.written
            ++ WriterCall.WriteString value ::
              (if (W.call (ToyKVClient.requestHandler E W U c [setName, key, value]).2.rWriter
                    (WriterCall.WriteString value)).1 = none
                then [WriterCall.Flush] else []) := by
  have hc := hcommit c.store.fsm (jsonMarshal (NewSetCommand key value))
  have hrs := requestHandler_set E W U c setName key value hset hlead hc.1
  have hfl := flush_string_written W
    { c with cmd := lit "set", args := [key, value],
             store := (Store.Set E c.store key value).2,
             storeCalls := c.storeCalls ++ [StoreCall.Set key value] } (lit "OK")
  refine ⟨by rw [hrs]; exact hfl.1, ?_⟩
  have hg := requestHandler_get_written E W U
    (ToyKVClient.requestHandler E W U c [setName, key, value]).2 getName key hget
  have hval : ((ToyKVClient.requestHandler E W U c [setName, key, value]).2.store.fsm.store.m.lookup
      key).getD [] = value := by
    rw [hrs]
    simp only []
    rw [hfl.2.1]
    simp only [Store.Set, Store.propose, hlead, ne_eq, not_true_eq_false, if_false]
    rw [hc.2]
    have := apply_entry U c.store.fsm (WriteOp.set key value) (by simp [WriteOp.valid, hk, hv])
    simp only [WriteOp.entry, WriteOp.command] at this
    rw [this]
    simp [WriteOp.run]
  rw [hval] at hg
  exact hg

/-- C6, witness: on the reference engine as leader, `SET a` to the euro sign,
then `GET a`. -/
theorem set_then_get_witness :
    (ToLower asciiTables (lit "SET") = lit "set" ∧ ToLower asciiTables (lit "GET") = lit "get"
        ∧ (soloEngine asciiTables).State
            (newClient (soloStore RaftState.Leader [] NewFSM)).store.raft = RaftState.Leader
        ∧ validString (lit "a") = true ∧ validString [0xE2, 0x82, 0xAC] = true)
      ∧ (ToyKVClient.requestHandler (soloEngine asciiTables) okWriter asciiTables
          (ToyKVClient.requestHandler (soloEngine asciiTables) okWriter asciiTables
            (newClient (soloStore RaftState.Leader [] NewFSM))
            [lit "SET", lit "a", [0xE2, 0x82, 0xAC]]).2
          [lit "GET", lit "a"]).2.written
        = [WriterCall.WriteString (lit "OK"), WriterCall.Flush,
            WriterCall.WriteString [0xE2, 0x82, 0xAC], WriterCall.Flush] :=
  ⟨⟨by decide, by decide, rfl, by decide, by decide⟩,
    ((set_then_get (soloEngine asciiTables) okWriter asciiTables
      (newClient (soloStore RaftState.Leader [] NewFSM)) (lit "SET") (lit "GET") (lit "a")
      [0xE2, 0x82, 0xAC] (by decide) (by decide) rfl (soloEngine_commits asciiTables [])
      (by decide) (by decide)).2).trans (by decide)⟩

/-- C6, counterexample to the claim as stated: on the reference engine as
leader, after `set a v` with `v` the one byte 0xFF has been answered OK, the
reply to `get a` carries the three bytes of U+FFFD, not the byte 0xFF. -/
theorem set_then_get_differs :
    (ToyKVClient.requestHandler (soloEngine asciiTables) okWriter asciiTables
        (newClient (soloStore RaftState.Leader [] NewFSM))
        [lit "set", lit "a", [0xFF]]).2.written
      = [WriterCall.WriteString (lit "OK"), WriterCall.Flush]
    ∧ (ToyKVClient.requestHandler (soloEngine asciiTables) okWriter asciiTables
        (ToyKVClient.requestHandler (soloEngine asciiTables) okWriter asciiTables
          (newClient (soloStore RaftState.Leader [] NewFSM))
          [lit "set", lit "a", [0xFF]]).2
        [lit "get", lit "a"]).2.written
      = [WriterCall.WriteString (lit "OK"), WriterCall.Flush,
          WriterCall.WriteString [0xEF, 0xBF, 0xBD], WriterCall.Flush] := by
  decide

/-! ### C7 -/

/-- C7: `Store.Get` returns the value stored under `key` in the local state
machine, or the empty string when the key is absent, with a nil error; the
store, that is the map, the engine and the log of calls made on the engine, is
left as it was.  The engine is not an argument: no leadership state enters. -/
theorem store_get_local {ρ : Type} (s : Store ρ) (key : GoString) :
    Store.Get s key = (((s.fsm.store.m.lookup key).getD [], none), s) := by
  rfl

/-! ### C8 -/

/-- C8: for every byte string on which the decoder fails, `RaftFsm.Apply`
returns the error value "failed to unmarshal raft log" as its outcome and
leaves the state machine as it was. -/
theorem apply_decode_error (unmarshal : GoString → Option KeyValueCommand) (U : CaseTables)
    (f : RaftFsm) (data : GoString) (h : unmarshal data = none) :
    RaftFsm.Apply unmarshal U f data = (some Error.unmarshalFailed, f) := by
  simp [RaftFsm.Apply, h]

/-- C8, witness: the entry "not json". -/
theorem apply_decode_error_witness :
    jsonUnmarshal (lit "not json") = none
      ∧ RaftFsm.Apply jsonUnmarshal asciiTables NewFSM (lit "not json")
        = (some Error.unmarshalFailed, NewFSM) :=
  ⟨by decide, apply_decode_error jsonUnmarshal asciiTables NewFSM (lit "not json") (by decide)⟩

/-! ### C9 -/

/-- C9: for every log entry that decodes to a command `c`, `RaftFsm.Apply`
returns an error outcome exactly when the upper-cased operation tag is neither
"SET" nor "DEL", and then the state machine is unchanged; for every casing of
set and del the outcome is nil, whatever the map holds (so also for a DEL of an
absent key); the tags "GET" and the empty tag give the error "operation not
support". -/
theorem apply_operation_dispatch (unmarshal : GoString → Option KeyValueCommand)
    (U : CaseTables) (f : RaftFsm) (data : GoString) (c : KeyValueCommand)
    (h : unmarshal data = some c) :
    ((RaftFsm.Apply unmarshal U f data).1 ≠ none
        ↔ (ToUpper U c.Operation ≠ lit "SET" ∧ ToUpper U c.Operation ≠ lit "DEL"))
    ∧ ((RaftFsm.Apply unmarshal U f data).1 ≠ none → (RaftFsm.Apply unmarshal U f data).2 = f)
    ∧ (c.Operation.map lowerByte = lit "set" ∨ c.Operation.map lowerByte = lit "del" →
        (RaftFsm.Apply unmarshal U f data).1 = none)
    ∧ (c.Operation = lit "GET" ∨ c.Operation = [] →
        RaftFsm.Apply unmarshal U f data = (some Error.opNotSupport, f)) := by
  have hA : RaftFsm.Apply unmarshal U f data =
      if ToUpper U c.Operation = lit "SET" then f.applySet c.Key c.Value
      else if ToUpper U c.Operation = lit "DEL" then f.applyDel c.Key
      else (some Error.opNotSupport, f) := by
    simp only [RaftFsm.Apply, h]
  rw [hA]
  refine ⟨?_, ?_, ?_, ?_⟩
  · by_cases h1 : ToUpper U c.Operation = lit "SET"
    · simp [h1, RaftFsm.applySet, MemStore.Set]
    · by_cases h2 : ToUpper U c.Operation = lit "DEL"
      · rw [if_neg h1, if_pos h2]
        simp [RaftFsm.applyDel, MemStore.Delete]
        exact fun _ => h2
      · simp [h1, h2]
  · by_cases h1 : ToUpper U c.Operation = lit "SET"
    · simp [h1, RaftFsm.applySet, MemStore.Set]
    · by_cases h2 : ToUpper U c.Operation = lit "DEL"
      · rw [if_neg h1, if_pos h2]
        simp [RaftFsm.applyDel, MemStore.Delete]
      · simp [h1, h2]
  · rintro (hs | hd)
    · rw [if_pos (toUpper_of_lower_set U _ hs)]; rfl
    · rw [toUpper_of_lower_del U _ hd, if_neg (by decide), if_pos rfl]; rfl
  · rintro (hg | he)
    · have : ToUpper U c.Operation = lit "GET" := by rw [hg]; rfl
      rw [this, if_neg (by decide), if_neg (by decide)]
    · have : ToUpper U c.Operation = [] := by rw [he]; rfl
      rw [this, if_neg (by decide), if_neg (by decide)]

/-- C9, witness: the encoded command `NewGetCommand "a"` decodes, and applying
it gives the error "operation not support" and leaves the empty store. -/
theorem apply_operation_dispatch_witness :
    jsonUnmarshal (jsonMarshal (NewGetCommand (lit "a"))) = some (NewGetCommand (lit "a"))
      ∧ RaftFsm.Apply jsonUnmarshal asciiTables NewFSM (jsonMarshal (NewGetCommand (lit "a")))
        = (some Error.opNotSupport, NewFSM) :=
  ⟨by decide, (apply_operation_dispatch jsonUnmarshal asciiTables NewFSM
    (jsonMarshal (NewGetCommand (lit "a"))) (NewGetCommand (lit "a")) (by decide)).2.2.2
      (Or.inl rfl)⟩

/-! ### C10 -/

/-- C10, as amended: for every request `get key` with exactly one argument, the
session handler answers with a status (simple string) reply, written by
`WriteString` and flushed when the write succeeded, which carries the stored
value when the key is present and the empty string when the key is absent. -/
theorem get_reply_is_status {ρ ω : Type} (E : RaftEngine ρ) (W : RespWriter ω)
    (U : CaseTables) (c : ToyKVClient ρ ω) (name key : GoString)
    (h : ToLower U name = lit "get") :
    (ToyKVClient.requestHandler E W U c [name, key]).2.written
      = c.written ++ WriterCall.WriteString ((c.store.fsm.store.m.lookup key).getD []) ::
          (if (W.call c.rWriter
                (WriterCall.WriteString ((c.store.fsm.store.m.lookup key).getD []))).1 = none
            then [WriterCall.Flush] else []) :=
  requestHandler_get_written E W U c name key h

/-- C10, witness: `GET a` on a follower whose map holds a = 1. -/
theorem get_reply_is_status_witness :
    ToLower asciiTables (lit "GET") = lit "get"
      ∧ (ToyKVClient.requestHandler (soloEngine asciiTables) okWriter asciiTables
          (newClient (soloStore RaftState.Follower []
            { store := { m := AList.insert (lit "a") (lit "1") ∅ } }))
          [lit "GET", lit "a"]).2.written
        = [WriterCall.WriteString (lit "1"), WriterCall.Flush] :=
  ⟨by decide, (get_reply_is_status (soloEngine asciiTables) okWriter asciiTables
    (newClient (soloStore RaftState.Follower []
      { store := { m := AList.insert (lit "a") (lit "1") ∅ } }))
    (lit "GET") (lit "a") (by decide)).trans (by decide)⟩

/-- C10, counterexample to the claim as stated: for a present key the handler
calls `WriteString` with the value, and for an absent key `WriteString` with
the empty string; in neither case is the call `WriteBulk`. -/
theorem get_reply_not_bulk :
    (ToyKVClient.requestHandler (soloEngine asciiTables) okWriter asciiTables
        (newClient (soloStore RaftState.Follower []
          { store := { m := AList.insert (lit "a") (lit "1") ∅ } }))
        [lit "get", lit "a"]).2.written
      = [WriterCall.WriteString (lit "1"), WriterCall.Flush]
    ∧ (ToyKVClient.requestHandler (soloEngine asciiTables) okWriter asciiTables
        (newClient (soloStore RaftState.Follower []
          { store := { m := AList.insert (lit "a") (lit "1") ∅ } }))
        [lit "get", lit "a"]).2.written
      ≠ [WriterCall.WriteBulk (some (lit "1")), WriterCall.Flush]
    ∧ (ToyKVClient.requestHandler (soloEngine asciiTables) okWriter asciiTables
        (newClient (soloStore RaftState.Follower [] NewFSM))
        [lit "get", lit "a"]).2.written
      = [WriterCall.WriteString [], WriterCall.Flush]
    ∧ (ToyKVClient.requestHandler (soloEngine asciiTables) okWriter asciiTables
        (newClient (soloStore RaftState.Follower [] NewFSM))
        [lit "get", lit "a"]).2.written
      ≠ [WriterCall.WriteBulk none, WriterCall.Flush] := by
  decide

/-! ## Lemmas: the session handler, the session loop, the snapshot export -/

theorem flush_error_written {ρ ω : Type} (W : RespWriter ω) (c : ToyKVClient ρ ω)
    (e : Error) :
    (c.Flush W (Resp.error e)).2.written
        = c.written ++ WriterCall.WriteError e ::
            (if (W.call c.rWriter (WriterCall.WriteError e)).1 = none
              then [WriterCall.Flush] else [])
      ∧ (c.Flush W (Resp.error e)).2.store = c.store
      ∧ (c.Flush W (Resp.error e)).2.storeCalls = c.storeCalls := by
  unfold ToyKVClient.Flush ToyKVClient.Write ToyKVClient.writer
  cases h : (W.call c.rWriter (WriterCall.WriteError e)).1 <;> simp [h]

theorem requestHandler_eq {ρ ω : Type} (E : RaftEngine ρ) (W : RespWriter ω) (U : CaseTables)
    (c : ToyKVClient ρ ω) (req : List GoString) :
    ToyKVClient.requestHandler E W U c req =
      match ToyKVClient.dispatch E W
          { c with cmd := commandName U req, args := commandArgs req } with
      | (some err, c1) => (none, (c1.Flush W (Resp.error err)).2)
      | (none, c1) => (none, c1) := by
  cases req <;> rfl

theorem dispatch_join {ρ ω : Type} (E : RaftEngine ρ) (W : RespWriter ω)
    (c : ToyKVClient ρ ω) (hc : c.cmd = lit "join") :
    ToyKVClient.dispatch E W c = ToyKVClient.replyStatus W (lit "OK") (c.handleJoin E) := by
  unfold ToyKVClient.dispatch
  rw [hc, if_neg (by decide), if_neg (by decide), if_pos rfl]

theorem dispatch_leave {ρ ω : Type} (E : RaftEngine ρ) (W : RespWriter ω)
    (c : ToyKVClient ρ ω) (hc : c.cmd = lit "leave") :
    ToyKVClient.dispatch E W c = ToyKVClient.replyStatus W (lit "OK") (c.handleLeave E) := by
  unfold ToyKVClient.dispatch
  rw [hc, if_neg (by decide), if_neg (by decide), if_neg (by decide), if_pos rfl]

theorem dispatch_del {ρ ω : Type} (E : RaftEngine ρ) (W : RespWriter ω)
    (c : ToyKVClient ρ ω) (hc : c.cmd = lit "del") :
    ToyKVClient.dispatch E W c = ToyKVClient.replyStatus W (lit "OK") (c.handleDel E) := by
  unfold ToyKVClient.dispatch
  rw [hc, if_neg (by decide), if_neg (by decide), if_neg (by decide), if_neg (by decide),
    if_pos rfl]

theorem dispatch_ping {ρ ω : Type} (E : RaftEngine ρ) (W : RespWriter ω)
    (c : ToyKVClient ρ ω) (hc : c.cmd = lit "ping") :
    ToyKVClient.dispatch E W c = ToyKVClient.replyStatus W (lit "PONG") c.handlePing := by
  unfold ToyKVClient.dispatch
  rw [hc, if_pos rfl]

theorem dispatch_other {ρ ω : Type} (E : RaftEngine ρ) (W : RespWriter ω)
    (c : ToyKVClient ρ ω) (hc : c.cmd ∉ supportedCommands) :
    ToyKVClient.dispatch E W c = (some Error.ErrCmdNotSupport, c) := by
  simp only [supportedCommands, List.mem_cons, List.mem_singleton, List.not_mem_nil, or_false,
    not_or] at hc
  unfold ToyKVClient.dispatch
  rw [if_neg hc.1, if_neg hc.2.1, if_neg hc.2.2.1, if_neg hc.2.2.2.1, if_neg hc.2.2.2.2.1,
    if_neg hc.2.2.2.2.2]

theorem replyStatus_error {ρ ω : Type} (W : RespWriter ω) (ok : GoString) (e : Error)
    (c : ToyKVClient ρ ω) : ToyKVClient.replyStatus W ok (some e, c) = (some e, c) := rfl

theorem replyStatus_ok {ρ ω : Type} (W : RespWriter ω) (ok : GoString)
    (c : ToyKVClient ρ ω) :
    ToyKVClient.replyStatus W ok (none, c) = (none, (c.Flush W (Resp.string ok)).2) := rfl

theorem store_set_ne_params {ρ : Type} (E : RaftEngine ρ) (s : Store ρ) (k v : GoString) :
    (Store.Set E s k v).1 ≠ some Error.ErrParams := by
  unfold Store.Set Store.propose
  split_ifs
  · simp
  · cases (E.Apply s.raft s.fsm (jsonMarshal (NewSetCommand k v))).1 <;> simp

theorem store_delete_ne_params {ρ : Type} (E : RaftEngine ρ) (s : Store ρ) (k : GoString) :
    (Store.Delete E s k).1 ≠ some Error.ErrParams := by
  unfold Store.Delete Store.propose
  split_ifs
  · simp
  · cases (E.Apply s.raft s.fsm (jsonMarshal (NewDelCommand k))).1 <;> simp

theorem store_join_ne_params {ρ : Type} (E : RaftEngine ρ) (s : Store ρ) (n a : GoString) :
    (Store.Join E s n a).1 ≠ some Error.ErrParams := by
  unfold Store.Join
  cases E.GetConfiguration s.raft with
  | error e => simp
  | ok servers =>
    simp only []
    split_ifs
    · simp
    · cases (E.AddVoter s.raft n a).1 <;> simp

theorem store_leave_ne_params {ρ : Type} (E : RaftEngine ρ) (s : Store ρ) (n : GoString) :
    (Store.Leave E s n).1 ≠ some Error.ErrParams := by
  unfold Store.Leave
  cases E.GetConfiguration s.raft with
  | error e => simp
  | ok servers =>
    simp only []
    split_ifs
    · cases (E.RemoveServer s.raft n).1 <;> simp
    · simp

theorem requestHandler_replyError {ρ ω : Type} (E : RaftEngine ρ) (W : RespWriter ω)
    (U : CaseTables) (c : ToyKVClient ρ ω) (req : List GoString) :
    ToyKVClient.requestHandler E W U c req =
      (none, ToyKVClient.replyError W (ToyKVClient.dispatch E W
          { c with cmd := commandName U req, args := commandArgs req })) := by
  rw [requestHandler_eq]
  unfold ToyKVClient.replyError
  rcases ToyKVClient.dispatch E W
    { c with cmd := commandName U req, args := commandArgs req } with ⟨_ | e, c1⟩ <;> rfl

theorem handleSet_bad {ρ ω : Type} (E : RaftEngine ρ) (c : ToyKVClient ρ ω)
    (h : c.args.length ≠ 2) : c.handleSet E = (some Error.ErrParams, c) := by
  unfold ToyKVClient.handleSet
  split
  · rename_i key value hargs; rw [hargs] at h; simp at h
  · rfl

theorem handleGet_bad {ρ ω : Type} (c : ToyKVClient ρ ω)
    (h : c.args.length ≠ 1) : c.handleGet = (([], some Error.ErrParams), c) := by
  unfold ToyKVClient.handleGet
  split
  · rename_i key hargs; rw [hargs] at h; simp at h
  · rfl

theorem handleDel_bad {ρ ω : Type} (E : RaftEngine ρ) (c : ToyKVClient ρ ω)
    (h : c.args.length ≠ 1) : c.handleDel E = (some Error.ErrParams, c) := by
  unfold ToyKVClient.handleDel
  split
  · rename_i key hargs; rw [hargs] at h; simp at h
  · rfl

theorem handleJoin_bad {ρ ω : Type} (E : RaftEngine ρ) (c : ToyKVClient ρ ω)
    (h : c.args.length ≠ 2) : c.handleJoin E = (some Error.ErrParams, c) := by
  unfold ToyKVClient.handleJoin
  split
  · rename_i a n hargs; rw [hargs] at h; simp at h
  · rfl

theorem handleLeave_bad {ρ ω : Type} (E : RaftEngine ρ) (c : ToyKVClient ρ ω)
    (h : c.args.length ≠ 1) : c.handleLeave E = (some Error.ErrParams, c) := by
  unfold ToyKVClient.handleLeave
  split
  · rename_i n hargs; rw [hargs] at h; simp at h
  · rfl

theorem args_two (args : List GoString) (h : args.length = 2) :
    ∃ a b, args = [a, b] := by
  rcases args with _ | ⟨a, _ | ⟨b, _ | ⟨d, l⟩⟩⟩ <;> simp at h
  exact ⟨a, b, rfl⟩

theorem args_one (args : List GoString) (h : args.length = 1) :
    ∃ a, args = [a] := by
  rcases args with _ | ⟨a, _ | ⟨b, l⟩⟩ <;> simp at h
  exact ⟨a, rfl⟩

theorem handleSet_good {ρ ω : Type} (E : RaftEngine ρ) (c : ToyKVClient ρ ω)
    (key value : GoString) (h : c.args = [key, value]) :
    c.handleSet E = ((c.store.Set E key value).1,
      { c with store := (c.store.Set E key value).2,
               storeCalls := c.storeCalls ++ [StoreCall.Set key value] }) := by
  unfold ToyKVClient.handleSet
  rw [h]

theorem handleGet_good {ρ ω : Type} (c : ToyKVClient ρ ω)
    (key : GoString) (h : c.args = [key]) :
    c.handleGet = ((c.store.Get key).1,
      { c with store := (c.store.Get key).2,
               storeCalls := c.storeCalls ++ [StoreCall.Get key] }) := by
  unfold ToyKVClient.handleGet
  rw [h]

theorem handleDel_good {ρ ω : Type} (E : RaftEngine ρ) (c : ToyKVClient ρ ω)
    (key : GoString) (h : c.args = [key]) :
    c.handleDel E = ((c.store.Delete E key).1,
      { c with store := (c.store.Delete E key).2,
               storeCalls := c.storeCalls ++ [StoreCall.Delete key] }) := by
  unfold ToyKVClient.handleDel
  rw [h]

theorem handleJoin_good {ρ ω : Type} (E : RaftEngine ρ) (c : ToyKVClient ρ ω)
    (addr nodeID : GoString) (h : c.args = [addr, nodeID]) :
    c.handleJoin E = ((c.store.Join E nodeID addr).1,
      { c with store := (c.store.Join E nodeID addr).2,
               storeCalls := c.storeCalls ++ [StoreCall.Join nodeID addr] }) := by
  unfold ToyKVClient.handleJoin
  rw [h]

theorem handleLeave_good {ρ ω : Type} (E : RaftEngine ρ) (c : ToyKVClient ρ ω)
    (nodeID : GoString) (h : c.args = [nodeID]) :
    c.handleLeave E = ((c.store.Leave E nodeID).1,
      { c with store := (c.store.Leave E nodeID).2,
               storeCalls := c.storeCalls ++ [StoreCall.Leave nodeID] }) := by
  unfold ToyKVClient.handleLeave
  rw [h]

theorem handleSet_frame {ρ ω : Type} (E : RaftEngine ρ) (c : ToyKVClient ρ ω) :
    (c.handleSet E).2.written = c.written ∧ (c.handleSet E).2.rWriter = c.rWriter := by
  unfold ToyKVClient.handleSet
  split <;> exact ⟨rfl, rfl⟩

theorem handleGet_frame {ρ ω : Type} (c : ToyKVClient ρ ω) :
    c.handleGet.2.written = c.written ∧ c.handleGet.2.rWriter = c.rWriter := by
  unfold ToyKVClient.handleGet
  split <;> exact ⟨rfl, rfl⟩

theorem handleDel_frame {ρ ω : Type} (E : RaftEngine ρ) (c : ToyKVClient ρ ω) :
    (c.handleDel E).2.written = c.written ∧ (c.handleDel E).2.rWriter = c.rWriter := by
  unfold ToyKVClient.handleDel
  split <;> exact ⟨rfl, rfl⟩

theorem handleJoin_frame {ρ ω : Type} (E : RaftEngine ρ) (c : ToyKVClient ρ ω) :
    (c.handleJoin E).2.written = c.written ∧ (c.handleJoin E).2.rWriter = c.rWriter := by
  unfold ToyKVClient.handleJoin
  split <;> exact ⟨rfl, rfl⟩

theorem handleLeave_frame {ρ ω : Type} (E : RaftEngine ρ) (c : ToyKVClient ρ ω) :
    (c.handleLeave E).2.written = c.written ∧ (c.handleLeave E).2.rWriter = c.rWriter := by
  unfold ToyKVClient.handleLeave
  split <;> exact ⟨rfl, rfl⟩

theorem replyError_replyStatus {ρ ω : Type} (W : RespWriter ω) (ok : GoString)
    (c : ToyKVClient ρ ω) (r : Option Error × ToyKVClient ρ ω)
    (hw : r.2.written = c.written) (hr : r.2.rWriter = c.rWriter) :
    ∃ k, k ≠ WriterCall.Flush
      ∧ (ToyKVClient.replyError W (ToyKVClient.replyStatus W ok r)).written
        = c.written ++ k ::
            (if (W.call c.rWriter k).1 = none then [WriterCall.Flush] else []) := by
  rcases r with ⟨_ | e, c1⟩
  · refine ⟨WriterCall.WriteString ok, by simp, ?_⟩
    show (c1.Flush W (Resp.string ok)).2.written = _
    rw [(flush_string_written W c1 ok).1]
    simp only [] at hw hr
    rw [hw, hr]
  · refine ⟨WriterCall.WriteError e, by simp, ?_⟩
    show (c1.Flush W (Resp.error e)).2.written = _
    rw [(flush_error_written W c1 e).1]
    simp only [] at hw hr
    rw [hw, hr]

theorem replyError_dispatch {ρ ω : Type} (E : RaftEngine ρ) (W : RespWriter ω)
    (c : ToyKVClient ρ ω) :
    ∃ k, k ≠ WriterCall.Flush
      ∧ (ToyKVClient.replyError W (ToyKVClient.dispatch E W c)).written
        = c.written ++ k ::
            (if (W.call c.rWriter k).1 = none then [WriterCall.Flush] else []) := by
  by_cases h1 : c.cmd = lit "ping"
  · rw [dispatch_ping E W c h1]
    exact replyError_replyStatus W _ c _ rfl rfl
  by_cases h2 : c.cmd = lit "set"
  · rw [dispatch_set E W c h2]
    exact replyError_replyStatus W _ c _ (handleSet_frame E c).1 (handleSet_frame E c).2
  by_cases h3 : c.cmd = lit "join"
  · rw [dispatch_join E W c h3]
    exact replyError_replyStatus W _ c _ (handleJoin_frame E c).1 (handleJoin_frame E c).2
  by_cases h4 : c.cmd = lit "leave"
  · rw [dispatch_leave E W c h4]
    exact replyError_replyStatus W _ c _ (handleLeave_frame E c).1 (handleLeave_frame E c).2
  by_cases h5 : c.cmd = lit "del"
  · rw [dispatch_del E W c h5]
    exact replyError_replyStatus W _ c _ (handleDel_frame E c).1 (handleDel_frame E c).2
  by_cases h6 : c.cmd = lit "get"
  · rw [dispatch_get E W c h6]
    have hf := handleGet_frame c
    rcases hg : c.handleGet with ⟨⟨v, _ | e⟩, c1⟩
    · rw [hg] at hf
      refine ⟨WriterCall.WriteString v, by simp, ?_⟩
      show (c1.Flush W (Resp.string v)).2.written = _
      rw [(flush_string_written W c1 v).1]
      simp only [] at hf
      rw [hf.1, hf.2]
    · rw [hg] at hf
      refine ⟨WriterCall.WriteError e, by simp, ?_⟩
      show (c1.Flush W (Resp.error e)).2.written = _
      rw [(flush_error_written W c1 e).1]
      simp only [] at hf
      rw [hf.1, hf.2]
  · rw [dispatch_other E W c (by simp [supportedCommands, h1, h2, h3, h4, h5, h6])]
    refine ⟨WriterCall.WriteError Error.ErrCmdNotSupport, by simp, ?_⟩
    exact (flush_error_written W c _).1

theorem replyError_frame {ρ ω : Type} (W : RespWriter ω) (e : Error)
    (c : ToyKVClient ρ ω) :
    (ToyKVClient.replyError W (some e, c)).store = c.store
      ∧ (ToyKVClient.replyError W (some e, c)).storeCalls = c.storeCalls
      ∧ (ToyKVClient.replyError W (some e, c)).written
        = c.written ++ WriterCall.WriteError e ::
            (if (W.call c.rWriter (WriterCall.WriteError e)).1 = none
              then [WriterCall.Flush] else []) :=
  ⟨(flush_error_written W c e).2.1, (flush_error_written W c e).2.2,
    (flush_error_written W c e).1⟩

theorem toLower_of_lower (U : CaseTables) (name t : GoString)
    (ht : t.all (fun b => decide (0x61 ≤ b.val ∧ b.val ≤ 0x7A)) = true)
    (h : name.map lowerByte = t) : ToLower U name = t := by
  have ht2 : ∀ b ∈ t, 0x61 ≤ b.val ∧ b.val ≤ 0x7A := by
    intro b hb
    have := List.all_eq_true.mp ht b hb
    simpa using this
  obtain ⟨h1, _⟩ := map_upper_of_map_lower name t ht2 h
  rw [ToLower, if_pos h1, h]

theorem requestHandler_nil {ρ ω : Type} (E : RaftEngine ρ) (W : RespWriter ω)
    (U : CaseTables) (c : ToyKVClient ρ ω) (req : List GoString) :
    (ToyKVClient.requestHandler E W U c req).1 = none := by
  rw [requestHandler_replyError]

theorem clientHandler_request {ρ ω : Type} (E : RaftEngine ρ) (W : RespWriter ω)
    (U : CaseTables) (c : ToyKVClient ρ ω) (req : List GoString) (ps : List ParseResult) :
    ToyKVClient.clientHandler E W U c (ParseResult.request req :: ps)
      = { ToyKVClient.clientHandler E W U
            (ToyKVClient.requestHandler E W U { c with cmd := [], args := [] } req).2 ps with
          dispatched := req :: (ToyKVClient.clientHandler E W U
            (ToyKVClient.requestHandler E W U { c with cmd := [], args := [] } req).2
              ps).dispatched } := by
  have h := requestHandler_nil E W U { c with cmd := [], args := [] } req
  rw [ToyKVClient.clientHandler]
  rcases hr : ToyKVClient.requestHandler E W U { c with cmd := [], args := [] } req
    with ⟨_ | e, c1⟩
  · rfl
  · rw [hr] at h; exact absurd h (by simp)

theorem clientHandler_script {ρ ω : Type} (E : RaftEngine ρ) (W : RespWriter ω)
    (U : CaseTables) (ps : List ParseResult) : ∀ c : ToyKVClient ρ ω,
    (ToyKVClient.clientHandler E W U c ps).dispatched
        = requestsOf (ps.takeWhile (fun p => decide (p ≠ ParseResult.eof)))
      ∧ ((ToyKVClient.clientHandler E W U c ps).closed = true ↔ ParseResult.eof ∈ ps) := by
  induction ps with
  | nil => intro c; simp [ToyKVClient.clientHandler, requestsOf]
  | cons p ps ih =>
    intro c
    cases p with
    | request req =>
      rw [clientHandler_request]
      obtain ⟨h1, h2⟩ := ih (ToyKVClient.requestHandler E W U { c with cmd := [], args := [] } req).2
      simp [requestsOf, h1, h2]
    | eof => simp [ToyKVClient.clientHandler, requestsOf]
    | failed code =>
      obtain ⟨h1, h2⟩ := ih { c with cmd := [], args := [] }
      simp [ToyKVClient.clientHandler, requestsOf, h1, h2]

theorem sendAll_eq (cap : Nat) (es : List (Sigma fun _ : GoString => GoString)) :
    ∀ buf : List DataItem, buf.length ≤ cap →
      sendAll cap buf es =
        if buf.length + es.length ≤ cap then
          some (buf ++ es.map (fun e => { key := e.1, value := e.2 }))
        else none := by
  induction es with
  | nil =>
    intro buf h
    simp [sendAll, h]
  | cons e es ih =>
    intro buf hb
    rw [sendAll]
    by_cases h : buf.length < cap
    · rw [if_pos h, ih _ (by simp only [List.length_append, List.length_singleton]; omega)]
      simp only [List.length_append, List.length_cons, List.length_nil, List.map_cons,
        List.append_assoc, List.singleton_append]
      by_cases h2 : buf.length + (es.length + 1) ≤ cap
      · rw [if_pos h2, if_pos (by omega)]
      · rw [if_neg h2, if_neg (by omega)]
    · rw [if_neg h, if_neg (by simp only [List.length_cons]; omega)]

theorem getSnapshotData_eq (s : MemStore) :
    s.GetSnapshotData =
      if s.m.entries.length ≤ 1024 then
        some (s.m.entries.map (fun e => { key := e.1, value := e.2 }))
      else none := by
  unfold MemStore.GetSnapshotData
  rw [sendAll_eq _ _ _ (by simp)]
  simp

theorem manyEntries_keys (n : Nat) : ∀ k : GoString, k ∈ manyEntries n → k.length < n := by
  induction n with
  | zero => intro k hk; simp [manyEntries] at hk
  | succ n ih =>
    intro k hk
    rw [manyEntries, AList.mem_insert] at hk
    rcases hk with rfl | hk
    · simp
    · have := ih k hk; omega

theorem manyEntries_length (n : Nat) : (manyEntries n).entries.length = n := by
  induction n with
  | zero => rfl
  | succ n ih =>
    have hn : List.replicate n (0x6B : Byte) ∉ manyEntries n := by
      intro h
      have := manyEntries_keys n _ h
      simp at this
    rw [manyEntries, AList.insert_entries_of_neg hn, List.length_cons, ih]

theorem apply_decoded (J : GoString → Option KeyValueCommand) (U : CaseTables) (f : RaftFsm)
    (d : GoString) (c : KeyValueCommand) (h : J d = some c) :
    (RaftFsm.Apply J U f d).2 =
      if ToUpper U c.Operation = lit "SET" then
        { store := { m := f.store.m.insert c.Key c.Value } }
      else if ToUpper U c.Operation = lit "DEL" then
        { store := { m := f.store.m.erase c.Key } }
      else f := by
  simp only [RaftFsm.Apply, h]
  split_ifs <;> rfl

theorem erase_erase_self (k : GoString) (m : AList (fun _ : GoString => GoString)) :
    (m.erase k).erase k = m.erase k := by
  apply AList.ext
  simp only [AList.erase]
  exact List.kerase_of_not_mem_keys (List.not_mem_keys_kerase k m.nodupKeys)

/-! ### C11 -/

/-- C11: for every request whose lower-cased name is set, get, del, join or
leave, with `n` the number of arguments the command requires: when the request
has another number of arguments, the switch of `requestHandler` ends with
`ErrParams` and the client as it was, so that no store operation was called
and the store is unchanged by the request; with `n` arguments the error left
by the handler is never `ErrParams`. -/
theorem argument_count_checked {ρ ω : Type} (E : RaftEngine ρ) (W : RespWriter ω)
    (U : CaseTables) (c : ToyKVClient ρ ω) (req : List GoString) (n : Nat)
    (h : requiredArgs (commandName U req) = some n) :
    ((commandArgs req).length ≠ n →
      ToyKVClient.dispatch E W { c with cmd := commandName U req, args := commandArgs req }
          = (some Error.ErrParams,
              { c with cmd := commandName U req, args := commandArgs req })
        ∧ (ToyKVClient.requestHandler E W U c req).2.storeCalls = c.storeCalls
        ∧ (ToyKVClient.requestHandler E W U c req).2.store = c.store)
    ∧ ((commandArgs req).length = n →
      (ToyKVClient.dispatch E W
        { c with cmd := commandName U req, args := commandArgs req }).1
          ≠ some Error.ErrParams) := by
  have hbad : ∀ c0 : ToyKVClient ρ ω, c0.store = c.store → c0.storeCalls = c.storeCalls →
      ToyKVClient.dispatch E W c0 = (some Error.ErrParams, c0) →
      (ToyKVClient.replyError W (ToyKVClient.dispatch E W c0)).storeCalls = c.storeCalls
        ∧ (ToyKVClient.replyError W (ToyKVClient.dispatch E W c0)).store = c.store := by
    intro c0 hs hc hd
    rw [hd]
    exact ⟨(replyError_frame W _ c0).2.1.trans hc, (replyError_frame W _ c0).1.trans hs⟩
  rw [requestHandler_replyError]
  generalize hc0 : ({ c with cmd := commandName U req, args := commandArgs req }
    : ToyKVClient ρ ω) = c0
  have hcmd : c0.cmd = commandName U req := by rw [← hc0]
  have hargs : c0.args = commandArgs req := by rw [← hc0]
  have hst : c0.store = c.store := by rw [← hc0]
  have hsc : c0.storeCalls = c.storeCalls := by rw [← hc0]
  rw [← hcmd] at h
  rw [← hargs]
  unfold requiredArgs at h
  split_ifs at h with h1 h2 h3 h4 h5
  · obtain rfl : 2 = n := Option.some.inj h
    constructor
    · intro hl
      have hd : ToyKVClient.dispatch E W c0 = (some Error.ErrParams, c0) := by
        rw [dispatch_set E W c0 h1, handleSet_bad E c0 hl]; rfl
      exact ⟨hd, hbad c0 hst hsc hd⟩
    · intro hl
      obtain ⟨a, b, hab⟩ := args_two _ hl
      rw [dispatch_set E W c0 h1, handleSet_good E c0 a b hab]
      have := store_set_ne_params E c0.store a b
      rcases hr : (c0.store.Set E a b).1 with _ | e
      · simp [ToyKVClient.replyStatus]
      · rw [hr] at this
        simpa [ToyKVClient.replyStatus] using this
  · obtain rfl : 1 = n := Option.some.inj h
    constructor
    · intro hl
      have hd : ToyKVClient.dispatch E W c0 = (some Error.ErrParams, c0) := by
        rw [dispatch_get E W c0 h2, handleGet_bad c0 hl]
      exact ⟨hd, hbad c0 hst hsc hd⟩
    · intro hl
      obtain ⟨a, hab⟩ := args_one _ hl
      rw [dispatch_get E W c0 h2, handleGet_good c0 a hab]
      simp [Store.Get, RaftFsm.Get, MemStore.Get]
  · obtain rfl : 1 = n := Option.some.inj h
    constructor
    · intro hl
      have hd : ToyKVClient.dispatch E W c0 = (some Error.ErrParams, c0) := by
        rw [dispatch_del E W c0 h3, handleDel_bad E c0 hl]; rfl
      exact ⟨hd, hbad c0 hst hsc hd⟩
    · intro hl
      obtain ⟨a, hab⟩ := args_one _ hl
      rw [dispatch_del E W c0 h3, handleDel_good E c0 a hab]
      have := store_delete_ne_params E c0.store a
      rcases hr : (c0.store.Delete E a).1 with _ | e
      · simp [ToyKVClient.replyStatus]
      · rw [hr] at this
        simpa [ToyKVClient.replyStatus] using this
  · obtain rfl : 2 = n := Option.some.inj h
    constructor
    · intro hl
      have hd : ToyKVClient.dispatch E W c0 = (some Error.ErrParams, c0) := by
        rw [dispatch_join E W c0 h4, handleJoin_bad E c0 hl]; rfl
      exact ⟨hd, hbad c0 hst hsc hd⟩
    · intro hl
      obtain ⟨a, b, hab⟩ := args_two _ hl
      rw [dispatch_join E W c0 h4, handleJoin_good E c0 a b hab]
      have := store_join_ne_params E c0.store b a
      rcases hr : (c0.store.Join E b a).1 with _ | e
      · simp [ToyKVClient.replyStatus]
      · rw [hr] at this
        simpa [ToyKVClient.replyStatus] using this
  · obtain rfl : 1 = n := Option.some.inj h
    constructor
    · intro hl
      have hd : ToyKVClient.dispatch E W c0 = (some Error.ErrParams, c0) := by
        rw [dispatch_leave E W c0 h5, handleLeave_bad E c0 hl]; rfl
      exact ⟨hd, hbad c0 hst hsc hd⟩
    · intro hl
      obtain ⟨a, hab⟩ := args_one _ hl
      rw [dispatch_leave E W c0 h5, handleLeave_good E c0 a hab]
      have := store_leave_ne_params E c0.store a
      rcases hr : (c0.store.Leave E a).1 with _ | e
      · simp [ToyKVClient.replyStatus]
      · rw [hr] at this
        simpa [ToyKVClient.replyStatus] using this

/-- C11, witness: `SET a` has one argument where set requires two. -/
theorem argument_count_checked_witness :
    requiredArgs (commandName asciiTables [lit "SET", lit "a"]) = some 2
      ∧ (ToyKVClient.requestHandler (soloEngine asciiTables) okWriter asciiTables
          (newClient (soloStore RaftState.Leader [] NewFSM)) [lit "SET", lit "a"]).2.storeCalls
        = [] :=
  ⟨by decide, ((argument_count_checked (soloEngine asciiTables) okWriter asciiTables
    (newClient (soloStore RaftState.Leader [] NewFSM)) [lit "SET", lit "a"] 2
    (by decide)).1 (by decide)).2.1⟩

/-! ### C12 -/

/-- C12, as amended: for every request whose lower-cased command name is not one
of ping, set, get, del, join, leave (the empty request included),
`requestHandler` calls no store operation, leaves the store as it was, and
writes the error reply of `ErrCmdNotSupport`, whose text is
"ERR command not supported". -/
theorem unknown_command_reply {ρ ω : Type} (E : RaftEngine ρ) (W : RespWriter ω)
    (U : CaseTables) (c : ToyKVClient ρ ω) (req : List GoString)
    (h : commandName U req ∉ supportedCommands) :
    (ToyKVClient.requestHandler E W U c req).2.storeCalls = c.storeCalls
      ∧ (ToyKVClient.requestHandler E W U c req).2.store = c.store
      ∧ (ToyKVClient.requestHandler E W U c req).2.written
        = c.written ++ WriterCall.WriteError Error.ErrCmdNotSupport ::
            (if (W.call c.rWriter (WriterCall.WriteError Error.ErrCmdNotSupport)).1 = none
              then [WriterCall.Flush] else [])
      ∧ Error.text Error.ErrCmdNotSupport = some (lit "ERR command not supported") := by
  rw [requestHandler_replyError, dispatch_other E W _ h]
  exact ⟨(replyError_frame W _ _).2.1, (replyError_frame W _ _).1, (replyError_frame W _ _).2.2,
    rfl⟩

/-- C12, witness: the request `flush`. -/
theorem unknown_command_reply_witness :
    commandName asciiTables [lit "flush"] ∉ supportedCommands
      ∧ (ToyKVClient.requestHandler (soloEngine asciiTables) okWriter asciiTables
          (newClient (soloStore RaftState.Leader [] NewFSM)) [lit "flush"]).2.written
        = [WriterCall.WriteError Error.ErrCmdNotSupport, WriterCall.Flush] :=
  ⟨by decide, ((unknown_command_reply (soloEngine asciiTables) okWriter asciiTables
    (newClient (soloStore RaftState.Leader [] NewFSM)) [lit "flush"]
    (by decide)).2.2.1).trans (by decide)⟩

/-- C12, counterexample to the claim as stated: for the request `flush` the
handler writes the error reply of `ErrCmdNotSupport`, and the text of that error
is "ERR command not supported", not "command not supported". -/
theorem unknown_command_reply_text :
    (ToyKVClient.requestHandler (soloEngine asciiTables) okWriter asciiTables
        (newClient (soloStore RaftState.Leader [] NewFSM)) [lit "flush"]).2.written
      = [WriterCall.WriteError Error.ErrCmdNotSupport, WriterCall.Flush]
    ∧ Error.text Error.ErrCmdNotSupport = some (lit "ERR command not supported")
    ∧ Error.text Error.ErrCmdNotSupport ≠ some (lit "command not supported") := by
  decide

/-! ### C13 -/

/-- C13: for every request and every outcome of the store operation it
triggers, `requestHandler` makes exactly one reply call `k` on the writer (a
call other than `Flush`), followed by exactly one `Flush` when that call
succeeded, and nothing else: never no reply and never two, on the success path
and on every error path. -/
theorem one_reply_per_request {ρ ω : Type} (E : RaftEngine ρ) (W : RespWriter ω)
    (U : CaseTables) (c : ToyKVClient ρ ω) (req : List GoString) :
    ∃ k, k ≠ WriterCall.Flush
      ∧ (ToyKVClient.requestHandler E W U c req).2.written
        = c.written ++ k ::
            (if (W.call c.rWriter k).1 = none then [WriterCall.Flush] else []) := by
  rw [requestHandler_replyError]
  exact replyError_dispatch E W { c with cmd := commandName U req, args := commandArgs req }

/-! ### C14 -/

/-- C14, the code at the failing input: on a connection whose writer fails
every call, `requestHandler` for the request `ping` makes the one failed write
and returns nil, and `clientHandler` stays in its loop: it dispatches the next
request as well and has not returned. -/
theorem write_failure_keeps_session :
    (ToyKVClient.requestHandler (soloEngine asciiTables) brokenWriter asciiTables
        (newClient (soloStore RaftState.Leader [] NewFSM)) [lit "ping"]).1 = none
      ∧ (ToyKVClient.requestHandler (soloEngine asciiTables) brokenWriter asciiTables
        (newClient (soloStore RaftState.Leader [] NewFSM)) [lit "ping"]).2.written
          = [WriterCall.WriteString (lit "PONG")]
      ∧ (ToyKVClient.clientHandler (soloEngine asciiTables) brokenWriter asciiTables
          (newClient (soloStore RaftState.Leader [] NewFSM))
          [ParseResult.request [lit "ping"], ParseResult.request [lit "ping"]]).closed = false
      ∧ (ToyKVClient.clientHandler (soloEngine asciiTables) brokenWriter asciiTables
          (newClient (soloStore RaftState.Leader [] NewFSM))
          [ParseResult.request [lit "ping"], ParseResult.request [lit "ping"]]).dispatched
          = [[lit "ping"], [lit "ping"]] := by
  decide

/-! ### C15 -/

/-- C15: in the session loop, an end-of-stream result ends the session with
nothing dispatched; a parse error other than end-of-stream leaves the session
in the loop, which goes on with the next result from the same client state
(nothing dispatched, nothing written); a request is handed to `requestHandler`
and the loop goes on.  Over a whole run the dispatched requests are the
requests parsed before the first end-of-stream, and the loop is left exactly
when an end-of-stream was read. -/
theorem session_loop_parse_results {ρ ω : Type} (E : RaftEngine ρ) (W : RespWriter ω)
    (U : CaseTables) (c : ToyKVClient ρ ω) (ps : List ParseResult) (code : Nat)
    (req : List GoString) :
    ToyKVClient.clientHandler E W U c (ParseResult.eof :: ps)
        = { client := { c with cmd := [], args := [] }, closed := true, dispatched := [] }
      ∧ ToyKVClient.clientHandler E W U c (ParseResult.failed code :: ps)
        = ToyKVClient.clientHandler E W U { c with cmd := [], args := [] } ps
      ∧ ToyKVClient.clientHandler E W U c (ParseResult.request req :: ps)
        = { ToyKVClient.clientHandler E W U
              (ToyKVClient.requestHandler E W U { c with cmd := [], args := [] } req).2 ps with
            dispatched := req :: (ToyKVClient.clientHandler E W U
              (ToyKVClient.requestHandler E W U { c with cmd := [], args := [] } req).2
                ps).dispatched }
      ∧ (ToyKVClient.clientHandler E W U c ps).dispatched
        = requestsOf (ps.takeWhile (fun p => decide (p ≠ ParseResult.eof)))
      ∧ ((ToyKVClient.clientHandler E W U c ps).closed = true ↔ ParseResult.eof ∈ ps) :=
  ⟨rfl, rfl, clientHandler_request E W U c req ps, (clientHandler_script E W U ps c).1,
    (clientHandler_script E W U ps c).2⟩

/-! ### C16 -/

/-- C16, the code at the failing input: for a map of 1025 entries
`GetSnapshotData` does not return (the 1025th send blocks on the full channel),
while for a map of 1024 entries it returns a channel holding one item for each
entry. -/
theorem snapshot_blocks_on_large_map :
    (manyEntries 1025).entries.length = 1025
      ∧ MemStore.GetSnapshotData { m := manyEntries 1025 } = none
      ∧ MemStore.GetSnapshotData { m := manyEntries 1024 }
        = some ((manyEntries 1024).entries.map (fun e => { key := e.1, value := e.2 })) := by
  refine ⟨manyEntries_length 1025, ?_, ?_⟩
  · rw [getSnapshotData_eq, if_neg]
    simp only []
    rw [manyEntries_length]
    omega
  · rw [getSnapshotData_eq, if_pos]
    simp only []
    rw [manyEntries_length]

/-! ### C17 -/

/-- C17: for every request whose command name is "join" in any letter casing,
with exactly two arguments `a` then `n`, the handler calls `Store.Join` once
with nodeID `n` and address `a`, and the reply is the status OK when
`Store.Join` returns nil and the error reply of the returned error
otherwise. -/
theorem join_swaps_arguments {ρ ω : Type} (E : RaftEngine ρ) (W : RespWriter ω)
    (U : CaseTables) (c : ToyKVClient ρ ω) (name a n : GoString)
    (hname : name.map lowerByte = lit "join") :
    (ToyKVClient.requestHandler E W U c [name, a, n]).2.storeCalls
        = c.storeCalls ++ [StoreCall.Join n a]
      ∧ (ToyKVClient.requestHandler E W U c [name, a, n]).2.store = (Store.Join E c.store n a).2
      ∧ ((Store.Join E c.store n a).1 = none →
          (ToyKVClient.requestHandler E W U c [name, a, n]).2.written
            = c.written ++ WriterCall.WriteString (lit "OK") ::
                (if (W.call c.rWriter (WriterCall.WriteString (lit "OK"))).1 = none
                  then [WriterCall.Flush] else []))
      ∧ (∀ e, (Store.Join E c.store n a).1 = some e →
          (ToyKVClient.requestHandler E W U c [name, a, n]).2.written
            = c.written ++ WriterCall.WriteError e ::
                (if (W.call c.rWriter (WriterCall.WriteError e)).1 = none
                  then [WriterCall.Flush] else [])) := by
  have hl : commandName U [name, a, n] = lit "join" :=
    toLower_of_lower U name (lit "join") (by decide) hname
  rw [requestHandler_replyError, hl]
  rw [dispatch_join E W _ rfl, handleJoin_good E _ a n rfl]
  rcases hr : (Store.Join E c.store n a).1 with _ | e
  · simp only [hr]
    rw [replyStatus_ok]
    unfold ToyKVClient.replyError
    simp only []
    refine ⟨(flush_string_written W _ _).2.2, (flush_string_written W _ _).2.1, ?_, ?_⟩
    · intro _
      exact (flush_string_written W _ _).1
    · intro e he; exact absurd he (by simp)
  · simp only [hr]
    rw [replyStatus_error]
    refine ⟨(replyError_frame W _ _).2.1, (replyError_frame W _ _).1, ?_, ?_⟩
    · intro he; exact absurd he (by simp)
    · intro e2 he
      obtain rfl : e = e2 := Option.some.inj he
      exact (replyError_frame W _ _).2.2

/-- C17, witness: `JoIn addr1 n2` on the reference engine. -/
theorem join_swaps_arguments_witness :
    (lit "JoIn").map lowerByte = lit "join"
      ∧ (ToyKVClient.requestHandler (soloEngine asciiTables) okWriter asciiTables
          (newClient (soloStore RaftState.Leader [] NewFSM))
          [lit "JoIn", lit "addr1", lit "n2"]).2.storeCalls
        = [StoreCall.Join (lit "n2") (lit "addr1")] :=
  ⟨by decide, (join_swaps_arguments (soloEngine asciiTables) okWriter asciiTables
    (newClient (soloStore RaftState.Leader [] NewFSM)) (lit "JoIn") (lit "addr1") (lit "n2")
    (by decide)).1⟩

/-! ### C18 -/

/-- C18, the code at the failing input: when `net.ResolveTCPAddr` fails,
whatever the other steps would do, `Store.Init` returns nil and the engine
handle is not set; a failure of each later step (transport, snapshot store, log
store, engine construction) is returned as an error. -/
theorem init_nil_without_engine {ρ : Type} (env : InitEnv ρ) (code : Nat) (bootstrap : Bool)
    (nodeID : GoString) :
    Store.Init { env with resolveTCPAddr := some code } bootstrap nodeID = (none, none)
      ∧ Store.Init { env with resolveTCPAddr := none, newTCPTransport := some code }
          bootstrap nodeID = (some (Error.engine code), none)
      ∧ Store.Init
          { env with resolveTCPAddr := none, newTCPTransport := none
                     newFileSnapshotStore := some code }
          bootstrap nodeID = (some (Error.engine code), none)
      ∧ Store.Init
          { env with resolveTCPAddr := none, newTCPTransport := none
                     newFileSnapshotStore := none, newBoltStore := some code }
          bootstrap nodeID = (some (Error.engine code), none)
      ∧ Store.Init
          { env with resolveTCPAddr := none, newTCPTransport := none
                     newFileSnapshotStore := none, newBoltStore := none
                     newRaft := Except.error code }
          bootstrap nodeID = (some (Error.engine code), none) :=
  ⟨rfl, rfl, rfl, rfl, rfl⟩

/-! ### C19 -/

/-- C19: for every state machine and every two log entries that decode to
commands on different keys, applying them through `RaftFsm.Apply` in either
order gives the same map (the same value or absence under every key); and
applying an entry twice in a row gives the same state machine as applying it
once.  This holds for every operation tag, so in particular for SET and
DEL. -/
theorem apply_commutes_and_repeats (J : GoString → Option KeyValueCommand) (U : CaseTables)
    (f : RaftFsm) (d1 d2 : GoString) (c1 c2 : KeyValueCommand)
    (h1 : J d1 = some c1) (h2 : J d2 = some c2) (hne : c1.Key ≠ c2.Key) :
    (∀ k : GoString,
      (RaftFsm.Apply J U (RaftFsm.Apply J U f d1).2 d2).2.store.m.lookup k
        = (RaftFsm.Apply J U (RaftFsm.Apply J U f d2).2 d1).2.store.m.lookup k)
    ∧ (RaftFsm.Apply J U (RaftFsm.Apply J U f d1).2 d1).2 = (RaftFsm.Apply J U f d1).2 := by
  constructor
  · intro k
    rw [apply_decoded J U _ d2 c2 h2, apply_decoded J U f d1 c1 h1,
      apply_decoded J U _ d1 c1 h1, apply_decoded J U f d2 c2 h2]
    by_cases hk1 : k = c1.Key
    · subst hk1
      split_ifs <;>
        simp [AList.lookup_insert_ne hne, AList.lookup_erase_ne hne,
          AList.lookup_insert, AList.lookup_erase]
    · by_cases hk2 : k = c2.Key
      · subst hk2
        split_ifs <;>
          simp [AList.lookup_insert_ne (Ne.symm hne), AList.lookup_erase_ne (Ne.symm hne),
            AList.lookup_insert, AList.lookup_erase]
      · split_ifs <;>
          simp [AList.lookup_insert_ne hk1, AList.lookup_insert_ne hk2,
            AList.lookup_erase_ne hk1, AList.lookup_erase_ne hk2]
  · rw [apply_decoded J U _ d1 c1 h1, apply_decoded J U f d1 c1 h1]
    split_ifs
    · simp [AList.insert_insert]
    · simp [erase_erase_self]
    · rfl

/-- C19, witness: the encoded commands SET a 1 and DEL b, applied to the
empty store. -/
theorem apply_commutes_and_repeats_witness :
    (jsonUnmarshal (jsonMarshal (NewSetCommand (lit "a") (lit "1")))
          = some (NewSetCommand (lit "a") (lit "1"))
        ∧ jsonUnmarshal (jsonMarshal (NewDelCommand (lit "b"))) = some (NewDelCommand (lit "b"))
        ∧ (NewSetCommand (lit "a") (lit "1")).Key ≠ (NewDelCommand (lit "b")).Key)
      ∧ (RaftFsm.Apply jsonUnmarshal asciiTables
          (RaftFsm.Apply jsonUnmarshal asciiTables NewFSM
            (jsonMarshal (NewSetCommand (lit "a") (lit "1")))).2
          (jsonMarshal (NewSetCommand (lit "a") (lit "1")))).2
        = (RaftFsm.Apply jsonUnmarshal asciiTables NewFSM
            (jsonMarshal (NewSetCommand (lit "a") (lit "1")))).2 :=
  ⟨⟨by decide, by decide, by decide⟩,
    (apply_commutes_and_repeats jsonUnmarshal asciiTables NewFSM
      (jsonMarshal (NewSetCommand (lit "a") (lit "1"))) (jsonMarshal (NewDelCommand (lit "b")))
      (NewSetCommand (lit "a") (lit "1")) (NewDelCommand (lit "b"))
      (by decide) (by decide) (by decide)).2⟩

end ToyKV
